import Mathlib

set_option maxRecDepth 8192

/-!
Verification development for the Architecture-as-Code visualizer core
(`src/utils/yamlParser.ts` and `src/utils/mermaidGenerator.ts`).

The TypeScript source is shallowly embedded:

* Parsed YAML/JSON trees become the inductive `JsonVal` (JS numbers are
  modelled as integers; none of the verified properties involve
  non-integer numerics).  JS `undefined` and `null` are both modelled as
  `JsonVal.null` — the source only ever distinguishes them through
  truthiness, where they agree.
* The external parsers (`JSON.parse`, `js-yaml`'s `load`/`loadAll`) are
  modelled as an abstract record `ExtParsers` of functions returning
  `Except String _`: `.error msg` models a thrown syntax error whose
  message is `msg`.
* A thrown JS exception inside a generator (property access on `null`,
  calling `.includes` on a non-string, calling `.forEach` on a
  non-array) is modelled by `Except String _`: helper `jsGet` raises on
  `null` exactly where a property read on `null`/`undefined` would throw.
* JS strings are modelled as Lean `String` (sequences of characters);
  `\s` and `trim` use the ASCII whitespace characters, and `toLowerCase`
  is ASCII — the verified properties only involve ASCII data.
* JS object key iteration is modelled in insertion order, matching the
  source's behaviour for the non-numeric keys that occur in these
  documents.
-/

/-! ## Generic string scanning utilities (substring tests, JS helpers) -/

/-- Does the first character list lead (start) the second? -/
def leadsWith : List Char → List Char → Bool
  | [], _ => true
  | _ :: _, [] => false
  | p :: ps, c :: cs => p = c && leadsWith ps cs

/-- Is `needle` a contiguous subsequence of the second list?  Models
JS `String.prototype.includes`. -/
def hasSub (needle : List Char) : List Char → Bool
  | [] => leadsWith needle []
  | c :: cs => leadsWith needle (c :: cs) || hasSub needle cs

/-- String-level `includes` test: `strHasSub needle hay` models
`hay.includes(needle)`. -/
def strHasSub (needle hay : String) : Bool := hasSub needle.data hay.data

/-- ASCII approximation of the JS `\s` character class / `trim` set. -/
def isJsSpace (c : Char) : Bool :=
  c = ' ' || c = '\t' || c = '\n' || c = '\r' || c = '\x0b' || c = '\x0c'

/-- JS `String.prototype.trim` (ASCII whitespace). -/
def trimJsList (l : List Char) : List Char :=
  ((l.dropWhile isJsSpace).reverse.dropWhile isJsSpace).reverse

/-- JS `String.prototype.split` with a single-character separator. -/
def splitOnChar (sep : Char) : List Char → List (List Char)
  | [] => [[]]
  | c :: cs =>
    if c = sep then [] :: splitOnChar sep cs
    else
      match splitOnChar sep cs with
      | [] => [[c]]
      | p :: ps => (c :: p) :: ps

/-- ASCII `toLowerCase` on a string. -/
def lowerStr (s : String) : String := ⟨s.data.map Char.toLower⟩

/-- Concatenate the strings produced for each list element, in order.
Models a `forEach` loop appending to an accumulator string. -/
def emitAll : List α → (α → String) → String
  | [], _ => ""
  | x :: xs, f => f x ++ emitAll xs f

/-- Monadic variant of `emitAll`: a `forEach` loop whose body may throw. -/
def emitAllM : List α → (α → Except String String) → Except String String
  | [], _ => .ok ""
  | x :: xs, f => do
    let s ← f x
    let rest ← emitAllM xs f
    pure (s ++ rest)

/-! ## The JSON/YAML value model -/

/-- A parsed YAML/JSON tree.  `num` carries an integer (see header note);
`obj` keeps fields in insertion order. -/
inductive JsonVal where
  | null
  | bool (b : Bool)
  | num (n : Int)
  | str (s : String)
  | arr (elems : List JsonVal)
  | obj (fields : List (String × JsonVal))

/-- `v === null` (also covers `undefined`, see header note). -/
def isNullJson : JsonVal → Bool
  | .null => true
  | _ => false

/-- JS truthiness of a value (`NaN` is out of the model). -/
def truthy : JsonVal → Bool
  | .null => false
  | .bool b => b
  | .num n => n ≠ 0
  | .str s => s ≠ ""
  | .arr _ => true
  | .obj _ => true

/-- `typeof v === "object"` (true for JS `null`, arrays and objects). -/
def isObjType : JsonVal → Bool
  | .null => true
  | .arr _ => true
  | .obj _ => true
  | _ => false

/-- Property read `v[f]` on a non-null value: `none` models `undefined`.
Only objects carry named fields here. -/
def getField : JsonVal → String → Option JsonVal
  | .obj fields, f => (fields.find? (fun p => p.fst = f)).map Prod.snd
  | _, _ => none

/-- Truthiness of `v.f` — the pervasive `if (v.f)` guard of the source. -/
def truthyField (v : JsonVal) (f : String) : Bool :=
  match getField v f with
  | some x => truthy x
  | none => false

/-- `f in v`: key presence (used by the validator, unlike `truthyField`). -/
def hasKey (v : JsonVal) (f : String) : Bool := (getField v f).isSome

/-- `Object.entries`: fields of an object, indexed elements of an array,
indexed one-character strings of a string, `[]` for other primitives. -/
def entriesOf : JsonVal → List (String × JsonVal)
  | .obj fields => fields
  | .arr elems => elems.enum.map (fun p => (toString p.fst, p.snd))
  | .str s => s.data.enum.map (fun p => (toString p.fst, JsonVal.str ⟨[p.snd]⟩))
  | _ => []

/-- `Object.keys`. -/
def keysOf (v : JsonVal) : List String := (entriesOf v).map Prod.fst

/-- `Object.values`. -/
def valuesOf (v : JsonVal) : List JsonVal := (entriesOf v).map Prod.snd

/-- `Array.isArray`. -/
def isArr : JsonVal → Bool
  | .arr _ => true
  | _ => false

mutual

/-- JS string coercion `${v}` (template-literal interpolation); arrays
render as their comma-separated elements with null/undefined elements
empty, matching `Array.prototype.toString`. -/
def jsToString : JsonVal → String
  | .null => "null"
  | .bool b => if b then "true" else "false"
  | .num n => toString n
  | .str s => s
  | .arr elems => jsArrJoin "," elems
  | .obj _ => "[object Object]"
termination_by structural v => v

/-- JS `Array.prototype.join`: `null` elements become empty strings. -/
def jsArrJoin (sep : String) : List JsonVal → String
  | [] => ""
  | [x] => match x with | .null => "" | x => jsToString x
  | x :: y :: rest =>
      (match x with | .null => "" | x => jsToString x) ++ sep ++
        jsArrJoin sep (y :: rest)
termination_by structural l => l

end

/-- String form of an array element under `join` (null/undefined → ""). -/
def jsElemString : JsonVal → String
  | .null => ""
  | v => jsToString v

mutual

/-- Model of `JSON.stringify` (sufficient fidelity for substring
detection: quotes are delimited, other escapes do not occur in the
verified inputs). -/
def stringifyJson : JsonVal → String
  | .null => "null"
  | .bool b => if b then "true" else "false"
  | .num n => toString n
  | .str s => "\"" ++ s ++ "\""
  | .arr elems => "[" ++ stringifyList elems ++ "]"
  | .obj fields => "\x7b" ++ stringifyFields fields ++ "\x7d"
termination_by structural v => v

/-- Comma-join of stringified array elements. -/
def stringifyList : List JsonVal → String
  | [] => ""
  | [x] => stringifyJson x
  | x :: y :: rest => stringifyJson x ++ "," ++ stringifyList (y :: rest)
termination_by structural l => l

/-- Comma-join of stringified object fields. -/
def stringifyFields : List (String × JsonVal) → String
  | [] => ""
  | [(k, v)] => "\"" ++ k ++ "\":" ++ stringifyJson v
  | (k, v) :: p :: rest =>
      "\"" ++ k ++ "\":" ++ stringifyJson v ++ "," ++
        stringifyFields (p :: rest)
termination_by structural l => l

end

/-- Property access `v.f` on a possibly-null value, as an exception:
reading a property of JS `null`/`undefined` throws a `TypeError`. -/
def jsGet (v : JsonVal) (f : String) : Except String (Option JsonVal) :=
  match v with
  | .null => .error ("Cannot read properties of null (reading " ++ f ++ ")")
  | _ => .ok (getField v f)

/-- `(x as Record<string, unknown>) || {}`: falsy values collapse to the
empty object; truthy values (of any type) pass through. -/
def orEmptyObj : Option JsonVal → JsonVal
  | some v => if truthy v then v else .obj []
  | none => .obj []

/-- `v.includes(needle)` where `v` may not be a string: non-strings throw. -/
def jsIncludesE (v : JsonVal) (needle : String) : Except String Bool :=
  match v with
  | .str s => .ok (strHasSub needle s)
  | _ => .error "includes is not a function"

/-! ## The node-id and label sanitizers (`mermaidGenerator.ts` 3-13) -/

/-- The character class `[a-zA-Z0-9_-]` of the sanitizer. -/
def isAllowedIdChar (c : Char) : Bool :=
  c.isAlpha || c.isDigit || c = '_' || c = '-'

/-- `.replace(/[^a-zA-Z0-9_-]/g, '_')`. -/
def sanitizeStep1 (l : List Char) : List Char :=
  l.map (fun c => if isAllowedIdChar c then c else '_')

/-- `.replace(/^[0-9]/, 'n$&')`: a leading digit is prefixed with `n`. -/
def sanitizeStep2 : List Char → List Char
  | [] => []
  | c :: cs => if c.isDigit then 'n' :: c :: cs else c :: cs

/-- `.replace(/_+/g, '_')`: collapse runs of underscores. -/
def sanitizeStep3 : List Char → List Char
  | [] => []
  | [c] => [c]
  | c :: d :: rest =>
    if c = '_' && d = '_' then sanitizeStep3 (d :: rest)
    else c :: sanitizeStep3 (d :: rest)

/-- Drop a single leading underscore, if present. -/
def dropLeadUnderscore (l : List Char) : List Char :=
  match l with
  | [] => []
  | c :: cs => if c = '_' then cs else c :: cs

/-- `.replace(/^_|_$/g, '')`: drop one leading and one trailing underscore. -/
def sanitizeStep4 (l : List Char) : List Char :=
  (dropLeadUnderscore (dropLeadUnderscore l).reverse).reverse

/-- `sanitizeNodeId` (`mermaidGenerator.ts` 3-9). -/
def sanitizeNodeId (s : String) : String :=
  ⟨sanitizeStep4 (sanitizeStep3 (sanitizeStep2 (sanitizeStep1 s.data)))⟩

/-- Replacement table of `sanitizeLabel`: `"` → `&quot;`, `\n` → `<br/>`. -/
def escapeLabelChar (c : Char) : List Char :=
  if c = '"' then "&quot;".data
  else if c = '\n' then "<br/>".data
  else [c]

/-- The two global replaces of `sanitizeLabel` fused (they act on
disjoint characters, so one pass is equivalent). -/
def escapeLabelChars (l : List Char) : List Char := l.flatMap escapeLabelChar

/-- `sanitizeLabel` (`mermaidGenerator.ts` 11-13). -/
def sanitizeLabel (label : String) : String :=
  ⟨trimJsList (escapeLabelChars label.data)⟩

example : sanitizeNodeId "aws_vpc.main" = "aws_vpc_main" := by decide
example : sanitizeNodeId "9lives" = "n9lives" := by decide
example : sanitizeNodeId "_5" = "5" := by decide
example : sanitizeNodeId "a//b" = "a_b" := by decide
example : sanitizeLabel " a\"b\nc " = "a&quot;b<br/>c" := by decide

/-! ## Format detection (`yamlParser.ts` 38-126) -/

/-- The seven format labels of `ParsedData['format']`. -/
inductive Format where
  | dockerCompose
  | kubernetes
  | terraform
  | cloudformation
  | azureArm
  | ibmCloud
  | unknown
deriving DecidableEq

/-- The string form of a format label (the TS union values). -/
def formatLabel : Format → String
  | .dockerCompose => "docker-compose"
  | .kubernetes => "kubernetes"
  | .terraform => "terraform"
  | .cloudformation => "cloudformation"
  | .azureArm => "azure-arm"
  | .ibmCloud => "ibm-cloud"
  | .unknown => "unknown"

/-- If `seq` leads `l`, return the rest of `l`. -/
def dropSeq (seq l : List Char) : Option (List Char) :=
  match seq, l with
  | [], rest => some rest
  | _ :: _, [] => none
  | p :: ps, c :: cs => if p = c then dropSeq ps cs else none

/-- Does `p` hold of some suffix of the list?  Models an unanchored
regex `test` (the engine tries every start position). -/
def scanAny (p : List Char → Bool) : List Char → Bool
  | [] => p []
  | c :: cs => p (c :: cs) || scanAny p cs

/-- Not the double-quote character (the `[^"]` class). -/
def neQuote (c : Char) : Bool := !(c = '"')

/-- Not the closing-brace character (the `[^}]` class). -/
def neRBrace (c : Char) : Bool := !(c = '}')

/-- Not the dot character (the `[^.]` class). -/
def neDot (c : Char) : Bool := !(c = '.')

/-- Match `"` `[^"]+` `"` at the head; return the quoted content and the
rest after the closing quote (the head of the `dropWhile` remainder is
necessarily the closing quote, so only its presence is tested). -/
def matchQuoted (l : List Char) : Option (List Char × List Char) :=
  match l with
  | [] => none
  | c :: rest =>
    if c = '"' then
      let content := rest.takeWhile neQuote
      let after := rest.dropWhile neQuote
      if content.isEmpty || after.isEmpty then none
      else some (content, after.tail)
    else none

/-- Match `\s+` at the head (at least one whitespace character). -/
def skipSpaces1 (l : List Char) : Option (List Char) :=
  match l with
  | [] => none
  | c :: cs => if isJsSpace c then some (cs.dropWhile isJsSpace) else none

/-- `/terraform\s*\{/` holds at the head of the list. -/
def terraformBraceAt (l : List Char) : Bool :=
  match dropSeq "terraform".data l with
  | some rest =>
    match rest.dropWhile isJsSpace with
    | '{' :: _ => true
    | _ => false
  | none => false

/-- `/resource\s+"[^"]+"\s+"[^"]+"\s*\{/` holds at the head of the list. -/
def resourceShapeAt (l : List Char) : Bool :=
  match dropSeq "resource".data l with
  | some s1 =>
    match skipSpaces1 s1 with
    | some s2 =>
      match matchQuoted s2 with
      | some (_, s3) =>
        match skipSpaces1 s3 with
        | some s4 =>
          match matchQuoted s4 with
          | some (_, s5) =>
            match s5.dropWhile isJsSpace with
            | '{' :: _ => true
            | _ => false
          | none => false
        | none => false
      | none => false
    | none => false
  | none => false

/-- The raw-text Terraform HCL heuristic (`detectFormat`, lines 41-50). -/
def hclHeuristic (content : String) : Bool :=
  strHasSub "terraform \x7b" content ||
  strHasSub "provider \"" content ||
  strHasSub "resource \"" content ||
  strHasSub "data \"" content ||
  scanAny terraformBraceAt content.data ||
  scanAny resourceShapeAt content.data

/-- The `$schema` ARM-marker test (`detectFormat`, lines 87-94):
`data.$schema && typeof data.$schema === 'string' &&
data.$schema.includes('deploymentTemplate.json')`. -/
def schemaHasArmMarker (v : JsonVal) : Bool :=
  match getField v "$schema" with
  | some (.str s) => strHasSub "deploymentTemplate.json" s
  | _ => false

/-- The field-presence cascade of `detectFormat` on a parsed value
(lines 80-122).  `isJson` records whether the value came from a
successful `JSON.parse`. -/
def classify (v : JsonVal) (isJson : Bool) : Format :=
  if !truthy v || !isObjType v then .unknown
  else if isJson && schemaHasArmMarker v then .azureArm
  else if truthyField v "AWSTemplateFormatVersion" || truthyField v "Resources" then
    .cloudformation
  else if truthyField v "apiVersion" && truthyField v "kind" then .kubernetes
  else if truthyField v "version" && truthyField v "services" then .dockerCompose
  else if truthyField v "terraform" || truthyField v "provider" ||
      truthyField v "resource" then
    .terraform
  else if strHasSub "ibm_" (lowerStr (stringifyJson v)) ||
      strHasSub "ibmcloud_" (lowerStr (stringifyJson v)) then
    .ibmCloud
  else .unknown

/-- The external parsers the source delegates to (`JSON.parse` and
js-yaml's `load`/`loadAll`); `.error msg` models a thrown syntax error
carrying message `msg`. -/
structure ExtParsers where
  jsonParse : String → Except String JsonVal
  yamlLoad : String → Except String JsonVal
  yamlLoadAll : String → Except String (List JsonVal)

/-- `detectFormat` (`yamlParser.ts` 38-126). -/
def detectFormat (P : ExtParsers) (content : String) : Format :=
  if hclHeuristic content then .terraform
  else
    match P.jsonParse content with
    | .ok parsed => classify parsed true
    | .error _ =>
      if strHasSub "---" content then
        match P.yamlLoadAll content with
        | .ok docs =>
          match docs.filter (fun d => !isNullJson d) with
          | [] => .unknown
          | d :: _ => classify d false
        | .error _ => .unknown
      else
        match P.yamlLoad content with
        | .ok v => classify v false
        | .error _ => .unknown

/-! ## Length lemmas for the scanning combinators -/

theorem dropWhile_length_le (p : Char → Bool) (l : List Char) :
    (l.dropWhile p).length ≤ l.length := by
  induction l with
  | nil => simp [List.dropWhile]
  | cons c cs ih =>
    by_cases h : p c
    · simp only [List.dropWhile, h]
      exact Nat.le_succ_of_le ih
    · simp [List.dropWhile, h]

theorem takeWhile_length_le (p : Char → Bool) (l : List Char) :
    (l.takeWhile p).length ≤ l.length := by
  induction l with
  | nil => simp [List.takeWhile]
  | cons c cs ih =>
    by_cases h : p c
    · simp only [List.takeWhile, h]
      exact Nat.succ_le_succ ih
    · simp [List.takeWhile, h]

theorem dropSeq_length_le (seq : List Char) :
    ∀ l r, dropSeq seq l = some r → r.length ≤ l.length := by
  induction seq with
  | nil =>
    intro l r h
    simp only [dropSeq] at h
    cases h
    exact Nat.le_refl _
  | cons p ps ih =>
    intro l r h
    cases l with
    | nil => simp [dropSeq] at h
    | cons c cs =>
      simp only [dropSeq] at h
      by_cases hpc : p = c
      · simp only [hpc, if_pos rfl] at h
        exact Nat.le_succ_of_le (ih cs r h)
      · simp [hpc] at h

theorem skipSpaces1_length_lt (l r : List Char) (h : skipSpaces1 l = some r) :
    r.length < l.length := by
  cases l with
  | nil => simp [skipSpaces1] at h
  | cons c cs =>
    simp only [skipSpaces1] at h
    by_cases hc : isJsSpace c
    · simp only [hc, if_true] at h
      cases h
      exact Nat.lt_succ_of_le (dropWhile_length_le _ _)
    · simp [hc] at h

theorem matchQuoted_length_lt (l : List Char) (content r : List Char)
    (h : matchQuoted l = some (content, r)) : r.length < l.length := by
  cases l with
  | nil => simp [matchQuoted] at h
  | cons c cs =>
    simp only [matchQuoted] at h
    by_cases hc : c = '"'
    · simp only [hc, if_true] at h
      by_cases he : (cs.takeWhile neQuote).isEmpty || (cs.dropWhile neQuote).isEmpty
      · simp [he] at h
      · simp only [he, if_neg, Bool.false_eq_true, not_false_eq_true,
          Option.some.injEq, Prod.mk.injEq] at h
        have hr : (cs.dropWhile neQuote).tail = r := h.2
        have hne : (cs.dropWhile neQuote).isEmpty = false := by
          rcases Bool.or_eq_false_iff.mp (Bool.eq_false_iff.mpr he) with ⟨_, h2⟩
          exact h2
        have hlen : (cs.dropWhile neQuote).length ≤ cs.length :=
          dropWhile_length_le _ _
        have hpos : 0 < (cs.dropWhile neQuote).length := by
          cases hdw : cs.dropWhile neQuote with
          | nil => rw [hdw] at hne; simp [List.isEmpty] at hne
          | cons d ds => simp [hdw]
        subst hr
        have := List.length_tail (cs.dropWhile neQuote)
        simp only [List.length_cons]
        omega
    · simp [hc] at h

/-! ## Generic global-regex scanner -/

/-- Fuel-driven scanner core: at each position try `step`; on a match,
record it and continue after the matched text, otherwise advance one
character.  The fuel-0 branch is unreachable from `scanWith`, whose
callers all supply a `step` that strictly shortens the rest. -/
def scanWithFuel (step : List Char → Option (α × List Char)) :
    Nat → List Char → List α
  | _, [] =>
    match step [] with
    | some (a, _) => [a]
    | none => []
  | 0, _ :: _ => []
  | fuel + 1, c :: cs =>
    match step (c :: cs) with
    | some (a, rest) => a :: scanWithFuel step fuel rest
    | none => scanWithFuel step fuel cs

/-- Global regex scanning, models `String.match(/…/g)`.  The proof
argument records that `step` consumes at least one character on every
match, so `l.length` fuel always suffices (each recursive call of
`scanWithFuel` acts on a strictly shorter list). -/
def scanWith (step : List Char → Option (α × List Char))
    (hstep : ∀ l a r, step l = some (a, r) → r.length < l.length)
    (l : List Char) : List α :=
  let _ := hstep
  scanWithFuel step l.length l

/-! ## The mini-HCL extractor (`yamlParser.ts` 128-277)

The block regexes all end in `\{([^}]*(?:\{[^}]*\}[^}]*)*)\}`.  Because
`[^}]*` is greedy and also consumes `{`, the engine always closes the
match at the first `}` after the opening brace (the inner group can
never start, and no later failure forces backtracking), so the captured
body is exactly the text up to the first `}`. -/

/-- Match `\s*\{` then a body up to the first `}`; return (body, rest). -/
def afterBrace (l : List Char) : Option (List Char × List Char) :=
  match l.dropWhile isJsSpace with
  | [] => none
  | c :: bodyArea =>
    if c = '{' then
      let body := bodyArea.takeWhile neRBrace
      let after := bodyArea.dropWhile neRBrace
      if after.isEmpty then none else some (body, after.tail)
    else none

theorem afterBrace_length_lt (l body r : List Char)
    (h : afterBrace l = some (body, r)) : r.length < l.length := by
  have hdw : (l.dropWhile isJsSpace).length ≤ l.length := dropWhile_length_le _ _
  unfold afterBrace at h
  rcases hd : l.dropWhile isJsSpace with _ | ⟨c, bodyArea⟩
  · rw [hd] at h; simp at h
  · rw [hd] at h
    simp only at h
    by_cases hc : c = '{'
    · simp only [hc, if_true] at h
      by_cases he : (bodyArea.dropWhile neRBrace).isEmpty
      · simp [he] at h
      · simp only [he, Bool.false_eq_true, if_neg, not_false_eq_true,
          Option.some.injEq, Prod.mk.injEq] at h
        have hr : (bodyArea.dropWhile neRBrace).tail = r := h.2
        have hlen : (bodyArea.dropWhile neRBrace).length ≤ bodyArea.length :=
          dropWhile_length_le _ _
        have hpos : 0 < (bodyArea.dropWhile neRBrace).length := by
          cases hdw2 : bodyArea.dropWhile neRBrace with
          | nil => rw [hdw2] at he; simp [List.isEmpty] at he
          | cons d ds => simp [hdw2]
        subst hr
        have := List.length_tail (bodyArea.dropWhile neRBrace)
        rw [hd] at hdw
        simp only [List.length_cons] at hdw
        omega
    · simp [hc] at h

/-- One-name block: `keyword\s+"name"\s*\{body\}` (for `provider` and
`variable` blocks); returns ((name, body), rest). -/
def stepBlock1 (keyword : List Char) (l : List Char) :
    Option ((List Char × List Char) × List Char) :=
  match dropSeq keyword l with
  | none => none
  | some s1 =>
    match skipSpaces1 s1 with
    | none => none
    | some s2 =>
      match matchQuoted s2 with
      | none => none
      | some (name, s3) =>
        match afterBrace s3 with
        | none => none
        | some (body, rest) => some ((name, body), rest)

/-- Two-name block: `keyword\s+"type"\s+"name"\s*\{body\}` (for
`resource` and `data` blocks); returns ((type, name, body), rest). -/
def stepBlock2 (keyword : List Char) (l : List Char) :
    Option ((List Char × List Char × List Char) × List Char) :=
  match dropSeq keyword l with
  | none => none
  | some s1 =>
    match skipSpaces1 s1 with
    | none => none
    | some s2 =>
      match matchQuoted s2 with
      | none => none
      | some (ty, s3) =>
        match skipSpaces1 s3 with
        | none => none
        | some s4 =>
          match matchQuoted s4 with
          | none => none
          | some (name, s5) =>
            match afterBrace s5 with
            | none => none
            | some (body, rest) => some ((ty, name, body), rest)

theorem stepBlock1_length_lt (keyword : List Char) :
    ∀ l a r, stepBlock1 keyword l = some (a, r) → r.length < l.length := by
  intro l a r h
  unfold stepBlock1 at h
  split at h
  · simp at h
  rename_i s1 h1
  split at h
  · simp at h
  rename_i s2 h2
  split at h
  · simp at h
  rename_i name s3 h3
  split at h
  · simp at h
  rename_i body rest h4
  simp only [Option.some.injEq, Prod.mk.injEq] at h
  have hr : rest = r := h.2
  subst hr
  have l1 := dropSeq_length_le keyword l s1 h1
  have l2 := skipSpaces1_length_lt s1 s2 h2
  have l3 := matchQuoted_length_lt s2 name s3 h3
  have l4 := afterBrace_length_lt s3 body rest h4
  omega

theorem stepBlock2_length_lt (keyword : List Char) :
    ∀ l a r, stepBlock2 keyword l = some (a, r) → r.length < l.length := by
  intro l a r h
  unfold stepBlock2 at h
  split at h
  · simp at h
  rename_i s1 h1
  split at h
  · simp at h
  rename_i s2 h2
  split at h
  · simp at h
  rename_i ty s3 h3
  split at h
  · simp at h
  rename_i s4 h4
  split at h
  · simp at h
  rename_i name s5 h5
  split at h
  · simp at h
  rename_i body rest h6
  simp only [Option.some.injEq, Prod.mk.injEq] at h
  have hr : rest = r := h.2
  subst hr
  have l1 := dropSeq_length_le keyword l s1 h1
  have l2 := skipSpaces1_length_lt s1 s2 h2
  have l3 := matchQuoted_length_lt s2 ty s3 h3
  have l4 := skipSpaces1_length_lt s3 s4 h4
  have l5 := matchQuoted_length_lt s4 name s5 h5
  have l6 := afterBrace_length_lt s5 body rest h6
  omega

/-- Identifier start `[a-zA-Z_]`. -/
def isIdeStart (c : Char) : Bool := c.isAlpha || c = '_'

/-- Identifier continuation `[a-zA-Z0-9_]`. -/
def isIdeChar (c : Char) : Bool := c.isAlpha || c.isDigit || c = '_'

/-- Reference continuation `[a-zA-Z0-9_.]`. -/
def isRefChar (c : Char) : Bool := isIdeChar c || c = '.'

/-- Per line, `/^\s*([a-zA-Z_][a-zA-Z0-9_]*)\s*=\s*"([^"]*)"/`:
a quoted scalar attribute; returns (key, value). -/
def matchAttrLine (line : List Char) : Option (List Char × List Char) :=
  match line.dropWhile isJsSpace with
  | [] => none
  | c :: _ =>
    if isIdeStart c then
      let l1 := line.dropWhile isJsSpace
      let key := l1.takeWhile isIdeChar
      match (l1.dropWhile isIdeChar).dropWhile isJsSpace with
      | [] => none
      | e :: s2 =>
        if e = '=' then
          match s2.dropWhile isJsSpace with
          | [] => none
          | q :: s3 =>
            if q = '"' then
              if (s3.dropWhile neQuote).isEmpty then none
              else some (key, s3.takeWhile neQuote)
            else none
        else none
    else none

/-- Per line, `/^\s*([a-zA-Z_][a-zA-Z0-9_]*)\s*=\s*([a-zA-Z_][a-zA-Z0-9_.]*)/`:
a bare reference attribute; returns (key, value). -/
def matchRefLine (line : List Char) : Option (List Char × List Char) :=
  match line.dropWhile isJsSpace with
  | [] => none
  | c :: _ =>
    if isIdeStart c then
      let l1 := line.dropWhile isJsSpace
      let key := l1.takeWhile isIdeChar
      match (l1.dropWhile isIdeChar).dropWhile isJsSpace with
      | [] => none
      | e :: s2 =>
        if e = '=' then
          match s2.dropWhile isJsSpace with
          | [] => none
          | v :: vrest =>
            if isIdeStart v then some (key, v :: vrest.takeWhile isRefChar)
            else none
        else none
    else none

/-- One `key = "value"` pair inside a `tags` block (unanchored global
`/([a-zA-Z_][a-zA-Z0-9_]*)\s*=\s*"([^"]*)"/g`). -/
def stepTagPair (l : List Char) :
    Option ((List Char × List Char) × List Char) :=
  match l with
  | [] => none
  | c :: _ =>
    if isIdeStart c then
      let key := l.takeWhile isIdeChar
      match (l.dropWhile isIdeChar).dropWhile isJsSpace with
      | [] => none
      | e :: s2 =>
        if e = '=' then
          match s2.dropWhile isJsSpace with
          | [] => none
          | q :: s3 =>
            if q = '"' then
              let v := s3.takeWhile neQuote
              let after := s3.dropWhile neQuote
              if after.isEmpty then none else some ((key, v), after.tail)
            else none
        else none
    else none

theorem stepTagPair_length_lt :
    ∀ l a r, stepTagPair l = some (a, r) → r.length < l.length := by
  intro l a r h
  unfold stepTagPair at h
  split at h
  · simp at h
  rename_i c rest
  by_cases hc : isIdeStart c
  · simp only [hc, if_true] at h
    split at h
    · simp at h
    rename_i e s2 h1
    by_cases he : e = '='
    · simp only [he, if_true] at h
      split at h
      · simp at h
      rename_i q s3 h2
      by_cases hq : q = '"'
      · simp only [hq, if_true] at h
        by_cases hemp : (s3.dropWhile neQuote).isEmpty
        · simp [hemp] at h
        · simp only [hemp, Bool.false_eq_true, if_neg, not_false_eq_true,
            Option.some.injEq, Prod.mk.injEq] at h
          have hr : (s3.dropWhile neQuote).tail = r := h.2
          have hpos : 0 < (s3.dropWhile neQuote).length := by
            cases hdw : s3.dropWhile neQuote with
            | nil => rw [hdw] at hemp; simp [List.isEmpty] at hemp
            | cons d ds => simp [hdw]
          have e1 : (s3.dropWhile neQuote).length ≤ s3.length :=
            dropWhile_length_le _ _
          have e2 : (s2.dropWhile isJsSpace).length ≤ s2.length :=
            dropWhile_length_le _ _
          have e3 : ((c :: rest).dropWhile isIdeChar).length ≤
              (c :: rest).length := dropWhile_length_le _ _
          have e4 : (((c :: rest).dropWhile isIdeChar).dropWhile
              isJsSpace).length ≤ ((c :: rest).dropWhile isIdeChar).length :=
            dropWhile_length_le _ _
          have e5 := List.length_tail (s3.dropWhile neQuote)
          rw [h2] at e2
          rw [h1] at e4
          simp only [List.length_cons] at e2 e3 e4 ⊢
          subst hr
          omega
      · simp [hq] at h
    · simp [he] at h
  · simp [hc] at h

/-- First match of `/tags\s*=\s*\{([^}]*)\}/` starting exactly here. -/
def tagsBlockAt (l : List Char) : Option (List Char) :=
  match dropSeq "tags".data l with
  | none => none
  | some s1 =>
    match s1.dropWhile isJsSpace with
    | [] => none
    | e :: s2 =>
      if e = '=' then
        match s2.dropWhile isJsSpace with
        | [] => none
        | b :: s3 =>
          if b = '{' then
            if (s3.dropWhile neRBrace).isEmpty then none
            else some (s3.takeWhile neRBrace)
          else none
      else none

/-- First match of the (non-global) `tags` block regex anywhere. -/
def findTagsBlock (l : List Char) : Option (List Char) :=
  match tagsBlockAt l with
  | some c => some c
  | none =>
    match l with
    | [] => none
    | _ :: cs => findTagsBlock cs

/-- JS object-property assignment `obj[k] = v`: replace in place if the
key exists, else append. -/
def upsertField : List (String × JsonVal) → String → JsonVal →
    List (String × JsonVal)
  | [], k, v => [(k, v)]
  | (k0, v0) :: rest, k, v =>
    if k0 = k then (k0, v) :: rest else (k0, v0) :: upsertField rest k v

/-- Look a key up as an object's field list (used for the
`result.resource[type] ||= {}` pattern: missing or non-object → `[]`). -/
def fieldsAt (fields : List (String × JsonVal)) (k : String) :
    List (String × JsonVal) :=
  match (fields.find? (fun p => p.fst = k)).map Prod.snd with
  | some (.obj fs) => fs
  | _ => []

/-- The attribute map extracted from a resource body
(`yamlParser.ts` 168-227): quoted scalars, then dotted bare references,
then a `tags` map when a complete tags block with pairs is present. -/
def attributesOfBody (body : List Char) : List (String × JsonVal) :=
  let lines := splitOnChar '\n' body
  let attrPairs := lines.filterMap matchAttrLine
  let refPairs :=
    (lines.filterMap matchRefLine).filter (fun p => p.snd.contains '.')
  let a0 := attrPairs.foldl
    (fun acc p => upsertField acc ⟨p.fst⟩ (.str ⟨p.snd⟩)) []
  let a1 := refPairs.foldl
    (fun acc p => upsertField acc ⟨p.fst⟩ (.str ⟨p.snd⟩)) a0
  match findTagsBlock body with
  | none => a1
  | some tagsContent =>
    match scanWith stepTagPair stepTagPair_length_lt tagsContent with
    | [] => a1
    | tagPairs =>
      upsertField a1 "tags"
        (.obj (tagPairs.foldl
          (fun acc p => upsertField acc ⟨p.fst⟩ (.str ⟨p.snd⟩)) []))

/-- `parseHCLToJSON` (`yamlParser.ts` 128-277). -/
def parseHCLToJSON (hclContent : String) : JsonVal :=
  let text := hclContent.data
  let providers := scanWith (stepBlock1 "provider".data)
    (stepBlock1_length_lt _) text
  let resources := scanWith (stepBlock2 "resource".data)
    (stepBlock2_length_lt _) text
  let dataSources := scanWith (stepBlock2 "data".data)
    (stepBlock2_length_lt _) text
  let variableBlocks := scanWith (stepBlock1 "variable".data)
    (stepBlock1_length_lt _) text
  let providerFields :=
    if providers.isEmpty then []
    else
      [("provider", JsonVal.obj (providers.foldl
        (fun acc p =>
          upsertField acc ⟨p.fst⟩ (.obj [("name", .str ⟨p.fst⟩)])) []))]
  let resourceFields :=
    if resources.isEmpty then []
    else
      [("resource", JsonVal.obj (resources.foldl
        (fun acc t =>
          let ty : String := ⟨t.fst⟩
          let name : String := ⟨t.snd.fst⟩
          let attrs := attributesOfBody t.snd.snd
          upsertField acc ty
            (.obj (upsertField (fieldsAt acc ty) name (.obj attrs)))) []))]
  let dataFields :=
    if dataSources.isEmpty then []
    else
      [("data", JsonVal.obj (dataSources.foldl
        (fun acc t =>
          let ty : String := ⟨t.fst⟩
          let name : String := ⟨t.snd.fst⟩
          upsertField acc ty
            (.obj (upsertField (fieldsAt acc ty) name
              (.obj [("name", .str name)])))) []))]
  let variableFields :=
    if variableBlocks.isEmpty then []
    else
      [("variable", JsonVal.obj (variableBlocks.foldl
        (fun acc p =>
          upsertField acc ⟨p.fst⟩ (.obj [("name", .str ⟨p.fst⟩)])) []))]
  .obj (providerFields ++ resourceFields ++ dataFields ++ variableFields)

/-! ## Parse results, validation, and `parseContent` (`yamlParser.ts` 279-541) -/

/-- A single-quote character as a string (for message building). -/
def quoteCh : String := ⟨['\'']⟩

/-- `ValidationError` of the source types. -/
structure ValidationError where
  message : String
  type : String
deriving DecidableEq

/-- Result of `validateContent`. -/
structure ValidationOutcome where
  isValid : Bool
  errors : List ValidationError

/-- `ParsedData`: `multiDocument`/`documents` are only set for
multi-document YAML (`none` models the absent property). -/
structure ParsedData where
  format : Format
  data : JsonVal
  originalContent : String
  multiDocument : Bool
  documents : Option (List JsonVal)

/-- `ParseResult` (fields absent in the source union are `none`). -/
structure ParseResult where
  success : Bool
  data : Option ParsedData
  error : Option String
  validationErrors : Option (List ValidationError)

/-- Required fields of `FORMAT_PATTERNS[format]`. -/
def requiredFields : Format → List String
  | .dockerCompose => ["version", "services"]
  | .kubernetes => ["apiVersion", "kind"]
  | .cloudformation => ["Resources"]
  | .terraform => []
  | .azureArm => ["$schema", "contentVersion", "resources"]
  | .ibmCloud => []
  | .unknown => []

/-- Is the optional value a string? -/
def isStrOpt : Option JsonVal → Bool
  | some (.str _) => true
  | _ => false

/-- `validateDockerCompose` (`yamlParser.ts` 442-466). -/
def validateDockerCompose (d : JsonVal) : List ValidationError :=
  match getField d "services" with
  | some sv =>
    if truthy sv && isObjType sv then
      (entriesOf sv).foldl
        (fun errs p =>
          if !truthy p.snd || !isObjType p.snd then
            errs ++ [{ message := "Invalid service configuration for: " ++ p.fst,
                       type := "error" }]
          else if !truthyField p.snd "image" && !truthyField p.snd "build" then
            errs ++ [{ message := "Service " ++ quoteCh ++ p.fst ++ quoteCh ++
                         " must have either " ++ quoteCh ++ "image" ++ quoteCh ++
                         " or " ++ quoteCh ++ "build" ++ quoteCh ++ " specified",
                       type := "warning" }]
          else errs) []
    else []
  | none => []

/-- `validateKubernetes` (`yamlParser.ts` 468-497). -/
def validateKubernetes (d : JsonVal) : List ValidationError :=
  (if !isStrOpt (getField d "apiVersion") then
    [{ message := "apiVersion must be a string", type := "error" }]
  else []) ++
  (if !isStrOpt (getField d "kind") then
    [{ message := "kind must be a string", type := "error" }]
  else []) ++
  (match getField d "metadata" with
  | some meta =>
    if truthy meta && isObjType meta then
      if !truthyField meta "name" then
        [{ message := "metadata.name is required", type := "warning" }]
      else []
    else []
  | none => [])

/-- `validateCloudFormation` (`yamlParser.ts` 499-523). -/
def validateCloudFormation (d : JsonVal) : List ValidationError :=
  match getField d "Resources" with
  | some rv =>
    if truthy rv && isObjType rv then
      (entriesOf rv).foldl
        (fun errs p =>
          if !truthy p.snd || !isObjType p.snd then
            errs ++ [{ message := "Invalid resource configuration for: " ++ p.fst,
                       type := "error" }]
          else if !truthyField p.snd "Type" then
            errs ++ [{ message := "Resource " ++ quoteCh ++ p.fst ++ quoteCh ++
                         " is missing Type property",
                       type := "error" }]
          else errs) []
    else []
  | none => []

/-- `validateTerraform` (`yamlParser.ts` 525-541). -/
def validateTerraform (d : JsonVal) : List ValidationError :=
  let hasResources := truthyField d "resource" &&
    isObjType ((getField d "resource").getD .null)
  let hasData := truthyField d "data" &&
    isObjType ((getField d "data").getD .null)
  let hasModule := truthyField d "module" &&
    isObjType ((getField d "module").getD .null)
  if !hasResources && !hasData && !hasModule then
    [{ message := "Terraform configuration should contain at least one resource, data source, or module",
       type := "warning" }]
  else []

/-- `validateContent` (`yamlParser.ts` 384-440). -/
def validateContent (d : JsonVal) (format : Format) : ValidationOutcome :=
  if !truthy d || !isObjType d then
    { isValid := false,
      errors := [{ message := "Invalid data structure", type := "error" }] }
  else if format = .unknown then
    { isValid := false,
      errors := [{ message := "Unknown or unsupported format", type := "error" }] }
  else
    let reqErrs := (requiredFields format).foldl
      (fun acc req =>
        if !hasKey d req then
          acc ++ [{ message := "Missing required field: " ++ req,
                    type := "error" }]
        else acc) []
    let extra :=
      match format with
      | .dockerCompose => validateDockerCompose d
      | .kubernetes => validateKubernetes d
      | .cloudformation => validateCloudFormation d
      | .terraform => validateTerraform d
      | _ => []
    let errors := reqErrs ++ extra
    { isValid := (errors.filter (fun e => e.type = "error")).isEmpty,
      errors := errors }

/-- The fixed unknown-format failure message of `parseContent`. -/
def unableToDetectMsg : String :=
  "Unable to detect supported format. Please check if your file is valid YAML/JSON and contains supported infrastructure configuration."

/-- `parseContent` (`yamlParser.ts` 279-382).  The inner `try/catch`
around the parse phase is the `Except`; the outer catch is unreachable
(everything after the parse phase is total). -/
def parseContent (P : ExtParsers) (content : String) : ParseResult :=
  let format := detectFormat P content
  if format = .unknown then
    { success := false, data := none, error := some unableToDetectMsg,
      validationErrors := none }
  else
    let parsedE : Except String (JsonVal × Bool × Option (List JsonVal)) :=
      if format = .terraform &&
          !leadsWith "\x7b".data (trimJsList content.data) &&
          !leadsWith "terraform:".data (trimJsList content.data) then
        .ok (parseHCLToJSON content, false, none)
      else if strHasSub "---" content then
        match P.yamlLoadAll content with
        | .error e => .error e
        | .ok docs =>
          match docs.filter (fun d => !isNullJson d) with
          | [] =>
            match P.yamlLoad content with
            | .ok v => .ok (v, false, none)
            | .error e => .error e
          | [d] =>
            if truthy d then .ok (d, false, none)
            else
              match P.yamlLoad content with
              | .ok v => .ok (v, false, none)
              | .error e => .error e
          | d :: d2 :: rest => .ok (d, true, some (d :: d2 :: rest))
      else
        match P.jsonParse content with
        | .ok v => .ok (v, false, none)
        | .error _ =>
          match P.yamlLoad content with
          | .ok v => .ok (v, false, none)
          | .error e => .error e
    match parsedE with
    | .error e =>
      { success := false, data := none,
        error := some ("Failed to parse content: " ++ e),
        validationErrors := some [{ message := e, type := "error" }] }
    | .ok (parsed, isMulti, docs) =>
      let validation := validateContent parsed format
      if !validation.isValid &&
          validation.errors.any (fun e => e.type = "error") then
        { success := false, data := none,
          error := some "Validation failed. Please check the errors below.",
          validationErrors := some validation.errors }
      else
        { success := true,
          data := some
            { format := format, data := parsed, originalContent := content,
              multiDocument := isMulti, documents := docs },
          error := none,
          validationErrors :=
            if validation.errors.length > 0 then some validation.errors
            else none }

/-! ## Mermaid generation: shared result type (`mermaidGenerator.ts`) -/

/-- `MermaidGenerationResult`. -/
structure MermaidGenerationResult where
  success : Bool
  mermaidCode : Option String
  error : Option String
  diagramType : String
deriving DecidableEq

/-- Short-circuit `v.includes(a) || v.includes(b) || …` (every branch
throws identically when `v` is not a string). -/
def jsIncludesAnyE (v : JsonVal) : List String → Except String Bool
  | [] => .ok false
  | n :: ns => do
    let b ← jsIncludesE v n
    if b then pure true else jsIncludesAnyE v ns

/-! ## Docker Compose generator (`mermaidGenerator.ts` 49-248) -/

/-- One service node with its detail label and optional class line
(lines 63-135). -/
def composeServiceNode (p : String × JsonVal) : Except String String := do
  let serviceName := p.fst
  let config := p.snd
  let nodeId := sanitizeNodeId serviceName
  let imageV ← jsGet config "image"
  let image : JsonVal :=
    match imageV with
    | some v => if truthy v then v else .str "custom"
    | none => .str "custom"
  let d0 : List String :=
    ["<b>" ++ serviceName ++ "</b>", "📦 " ++ jsToString image]
  let portsV ← jsGet config "ports"
  let d1 := d0 ++
    (match portsV with
    | some pv =>
      if truthy pv then
        (match pv with
        | .arr ps => ps
        | v => [v]).map (fun port => "🌐 " ++ jsToString port)
      else []
    | none => [])
  let envV ← jsGet config "environment"
  let d2 := d1 ++
    (match envV with
    | some ev =>
      if truthy ev then
        let count :=
          match ev with
          | .arr es => es.length
          | v => (keysOf v).length
        ["⚙️ " ++ toString count ++ " env vars"]
      else []
    | none => [])
  let volsV ← jsGet config "volumes"
  let d3 := d2 ++
    (match volsV with
    | some vv =>
      if truthy vv then
        let n := match vv with | .arr vs => vs.length | _ => 1
        ["💾 " ++ toString n ++ " volumes"]
      else []
    | none => [])
  let restartV ← jsGet config "restart"
  let d4 := d3 ++
    (match restartV with
    | some rv => if truthy rv then ["🔄 restart: " ++ jsToString rv] else []
    | none => [])
  let wdV ← jsGet config "working_dir"
  let d5 := d4 ++
    (match wdV with
    | some wv => if truthy wv then ["📁 " ++ jsToString wv] else []
    | none => [])
  let cmdV ← jsGet config "command"
  let d6 := d5 ++
    (match cmdV with
    | some cv =>
      if truthy cv then
        let cmd : JsonVal :=
          match cv with
          | .arr es => .str (jsArrJoin " " es)
          | v => v
        let shown :=
          match cmd with
          | .str s => if s.length > 20 then (⟨s.data.take 20⟩ : String) ++ "..." else s
          | v => jsToString v
        ["▶️ " ++ shown]
      else []
    | none => [])
  let label := sanitizeLabel (String.intercalate "<br/>" d6)
  let nodeLine := "        " ++ nodeId ++ "[\"" ++ label ++ "\"]\n"
  let classLine ← do
    let web ← jsIncludesAnyE image ["nginx", "apache"]
    if web then pure ("        class " ++ nodeId ++ " webServer\n")
    else do
      let db ← jsIncludesAnyE image ["postgres", "mysql", "mongo"]
      if db then pure ("        class " ++ nodeId ++ " database\n")
      else do
        let cache ← jsIncludesAnyE image ["redis", "memcached"]
        if cache then pure ("        class " ++ nodeId ++ " cache\n")
        else do
          let app ← jsIncludesAnyE image ["node", "python", "java"]
          if app then pure ("        class " ++ nodeId ++ " application\n")
          else pure ""
  pure (nodeLine ++ classLine)

/-- A single `depends_on` entry: string entries yield a
dependency-to-dependent edge, others nothing (lines 147-153). -/
def composeDepEdge (serviceName : String) (dep : JsonVal) : String :=
  match dep with
  | .str d =>
    "    " ++ sanitizeNodeId d ++ " -->|depends on| " ++
      sanitizeNodeId serviceName ++ "\n"
  | _ => ""

/-- The `depends_on` edges of one service (lines 140-155). -/
def composeServiceDeps (p : String × JsonVal) : Except String String := do
  let depV ← jsGet p.snd "depends_on"
  match depV with
  | some dv =>
    if truthy dv then
      let deps := match dv with | .arr ds => ds | v => [v]
      pure (emitAll deps (composeDepEdge p.fst))
    else pure ""
  | none => pure ""

/-- One network node; a falsy (e.g. null) config defaults to `{}` and
the driver defaults to `bridge` (lines 161-170). -/
def composeNetworkNode (p : String × JsonVal) : String :=
  let networkNodeId := sanitizeNodeId ("network_" ++ p.fst)
  let config := orEmptyObj (some p.snd)
  let driver : JsonVal :=
    match getField config "driver" with
    | some dv => if truthy dv then dv else .str "bridge"
    | none => .str "bridge"
  let networkLabel :=
    sanitizeLabel ("🌐 " ++ p.fst ++ "<br/>Driver: " ++ jsToString driver)
  "        " ++ networkNodeId ++ "[\"" ++ networkLabel ++ "\"]\n" ++
    "        class " ++ networkNodeId ++ " network\n"

/-- The service-to-network membership edges of one service
(lines 175-188). -/
def composeServiceNetworks (p : String × JsonVal) : Except String String := do
  let netsV ← jsGet p.snd "networks"
  match netsV with
  | some nv =>
    if truthy nv then
      let serviceNetworks : List String :=
        match nv with
        | .arr ns => ns.map jsToString
        | v => keysOf v
      pure (emitAll serviceNetworks (fun networkName =>
        "    " ++ sanitizeNodeId p.fst ++ " -.->|connects to| " ++
          sanitizeNodeId ("network_" ++ networkName) ++ "\n"))
    else pure ""
  | none => pure ""

/-- One volume node; a falsy (e.g. null) config defaults to `{}` and
the driver defaults to `local` (lines 195-204). -/
def composeVolumeNode (p : String × JsonVal) : String :=
  let volumeNodeId := sanitizeNodeId ("volume_" ++ p.fst)
  let config := orEmptyObj (some p.snd)
  let driver : JsonVal :=
    match getField config "driver" with
    | some dv => if truthy dv then dv else .str "local"
    | none => .str "local"
  let volumeLabel :=
    sanitizeLabel ("💾 " ++ p.fst ++ "<br/>Driver: " ++ jsToString driver)
  "        " ++ volumeNodeId ++ "[\"" ++ volumeLabel ++ "\"]\n" ++
    "        class " ++ volumeNodeId ++ " volume\n"

/-- One service-volume entry: a string that splits on `:` into at least
two parts whose first part is a named volume (not starting with `.` or
`/`) yields a mount edge (lines 215-228). -/
def composeVolumeEdgeFor (serviceName : String) (volume : JsonVal) : String :=
  match volume with
  | .str s =>
    let volumeParts := splitOnChar ':' s.data
    if volumeParts.length ≥ 2 then
      let volumeName : String := ⟨volumeParts.headD []⟩
      if !leadsWith ".".data volumeName.data &&
          !leadsWith "/".data volumeName.data then
        "    " ++ sanitizeNodeId ("volume_" ++ volumeName) ++
          " -.->|mounts to| " ++ sanitizeNodeId serviceName ++ "\n"
      else ""
    else ""
  | _ => ""

/-- The volume-mount edges of one service (lines 209-230). -/
def composeServiceVolumeEdges (p : String × JsonVal) :
    Except String String := do
  let volsV ← jsGet p.snd "volumes"
  match volsV with
  | some vv =>
    if truthy vv then
      let vols := match vv with | .arr vs => vs | v => [v]
      pure (emitAll vols (composeVolumeEdgeFor p.fst))
    else pure ""
  | none => pure ""

/-- The fixed style-class block of the compose generator (lines 234-241,
the exact template literal). -/
def composeClassDefs : String :=
  "\n    classDef webServer fill:#e1f5fe,stroke:#01579b,stroke-width:2px,color:#000\n    classDef database fill:#f3e5f5,stroke:#4a148c,stroke-width:2px,color:#000\n    classDef cache fill:#fff3e0,stroke:#e65100,stroke-width:2px,color:#000\n    classDef application fill:#e8f5e8,stroke:#2e7d32,stroke-width:2px,color:#000\n    classDef network fill:#fce4ec,stroke:#880e4f,stroke-width:2px,color:#000\n    classDef volume fill:#f1f8e9,stroke:#33691e,stroke-width:2px,color:#000\n  "

/-- The Networks subgraph with its membership edges, emitted only when
the networks record has keys (lines 158-189). -/
def composeNetBlock (services networks : JsonVal) : Except String String :=
  if (keysOf networks).length > 0 then do
    let conns ← emitAllM (entriesOf services) composeServiceNetworks
    pure ("    subgraph Networks[\"🌐 Networks\"]\n" ++
      emitAll (entriesOf networks) composeNetworkNode ++ "    end\n" ++
      conns)
  else pure ""

/-- The Volumes subgraph with its mount edges, emitted only when the
volumes record has keys (lines 192-231). -/
def composeVolBlock (services volumes : JsonVal) : Except String String :=
  if (keysOf volumes).length > 0 then do
    let conns ← emitAllM (entriesOf services) composeServiceVolumeEdges
    pure ("    subgraph Volumes[\"💾 Volumes\"]\n" ++
      emitAll (entriesOf volumes) composeVolumeNode ++ "    end\n" ++
      conns)
  else pure ""

/-- The markup string computed by `generateDockerComposeDiagram`
(`mermaidGenerator.ts` 49-241). -/
def composeCode (pd : ParsedData) : Except String String := do
  let data := pd.data
  let servicesV ← jsGet data "services"
  let services := orEmptyObj servicesV
  let networksV ← jsGet data "networks"
  let networks := orEmptyObj networksV
  let volumesV ← jsGet data "volumes"
  let volumes := orEmptyObj volumesV
  let svcNodes ← emitAllM (entriesOf services) composeServiceNode
  let deps ← emitAllM (entriesOf services) composeServiceDeps
  let netBlock ← composeNetBlock services networks
  let volBlock ← composeVolBlock services volumes
  pure ("flowchart TD\n" ++
    "    subgraph Services[\"🚀 Services\"]\n" ++ svcNodes ++
    "    end\n" ++ deps ++ netBlock ++ volBlock ++ composeClassDefs)

/-- `generateDockerComposeDiagram` (`mermaidGenerator.ts` 49-248). -/
def generateDockerComposeDiagram (pd : ParsedData) :
    Except String MermaidGenerationResult := do
  let code ← composeCode pd
  pure { success := true, mermaidCode := some code, error := none,
         diagramType := "flowchart" }

/-! ## Kubernetes generator (`mermaidGenerator.ts` 250-535) -/

/-- Template interpolation of a possibly-absent value
(`${undefined}` renders as "undefined"). -/
def jsOptToString : Option JsonVal → String
  | some v => jsToString v
  | none => "undefined"

/-- Optional-chain truthiness `o?.f` on a possibly-absent base. -/
def optTruthyField (o : Option JsonVal) (f : String) : Bool :=
  match o with
  | some v => truthyField v f
  | none => false

/-- `kind === "k"`: strict string comparison against a raw value. -/
def kindIs (o : Option JsonVal) (k : String) : Bool :=
  match o with
  | some (.str s) => s = k
  | _ => false

/-- `${x || 'N/A'}`. -/
def orNA (o : Option JsonVal) : String :=
  match o with
  | some v => if truthy v then jsToString v else "N/A"
  | none => "N/A"

/-- `x || 'default-string'` rendered as a string. -/
def orDefaultStr (o : Option JsonVal) (dflt : String) : String :=
  match o with
  | some v => if truthy v then jsToString v else dflt
  | none => dflt

/-- Indexed monadic `forEach` starting at a given index. -/
def emitAllIdxFrom : Nat → List α → (Nat → α → Except String String) →
    Except String String
  | _, [], _ => .ok ""
  | i, x :: xs, f => do
    let s ← f i x
    let rest ← emitAllIdxFrom (i + 1) xs f
    pure (s ++ rest)

/-- Indexed monadic `forEach`. -/
def emitAllIdxM (l : List α) (f : Nat → α → Except String String) :
    Except String String :=
  emitAllIdxFrom 0 l f

/-- Append a resource to its namespace group, preserving first-seen
namespace order (`namespaces[namespace].push(resource)`). -/
def addToNamespaces (nss : List (String × List JsonVal)) (ns : String)
    (r : JsonVal) : List (String × List JsonVal) :=
  match nss with
  | [] => [(ns, [r])]
  | (k, rs) :: rest =>
    if k = ns then (k, rs ++ [r]) :: rest
    else (k, rs) :: addToNamespaces rest ns r

/-- `processResource` (lines 258-266): group a resource under
`metadata.namespace || 'default'`. -/
def processResource (nss : List (String × List JsonVal)) (resource : JsonVal) :
    Except String (List (String × List JsonVal)) := do
  let mdO ← jsGet resource "metadata"
  let metadata := orEmptyObj mdO
  let nsName := orDefaultStr (getField metadata "namespace") "default"
  pure (addToNamespaces nss nsName resource)

/-- Deployment-case detail lines for the first container and the
"+N more" summary (lines 309-372). -/
def k8sContainersDetails (containers : List JsonVal) :
    Except String (List String) := do
  let firstDetails ←
    match containers with
    | [] => pure ([] : List String)
    | c0 :: _ => do
      let imgO ← jsGet c0 "image"
      let dImg := ["📦 " ++ orDefaultStr imgO "unknown"]
      let resO ← jsGet c0 "resources"
      let dRes :=
        match resO with
        | some rv =>
          if truthy rv then
            let requestsO := getField rv "requests"
            let limitsO := getField rv "limits"
            if truthyField rv "requests" || truthyField rv "limits" then
              (if optTruthyField requestsO "cpu" ||
                  optTruthyField requestsO "memory" then
                (match requestsO with
                | some reqv =>
                  ["📈 Requests: " ++ orNA (getField reqv "cpu") ++ "/" ++
                    orNA (getField reqv "memory")]
                | none => [])
              else []) ++
              (if optTruthyField limitsO "cpu" ||
                  optTruthyField limitsO "memory" then
                (match limitsO with
                | some limv =>
                  ["📉 Limits: " ++ orNA (getField limv "cpu") ++ "/" ++
                    orNA (getField limv "memory")]
                | none => [])
              else [])
            else []
          else []
        | none => []
      let portsO ← jsGet c0 "ports"
      let dPorts ←
        match portsO with
        | some pv =>
          if truthy pv && isArr pv then
            match pv with
            | .arr ps => do
              let strsList ← ps.mapM (fun port => do
                let cpO ← jsGet port "containerPort"
                pure ("🌐 " ++ jsOptToString cpO))
              pure (strsList.take 2)
            | _ => pure []
          else pure []
        | none => pure []
      let envO ← jsGet c0 "env"
      let dEnv :=
        match envO with
        | some ev =>
          if truthy ev && isArr ev then
            match ev with
            | .arr es => ["⚙️ " ++ toString es.length ++ " env vars"]
            | _ => []
          else []
        | none => []
      pure (dImg ++ dRes ++ dPorts ++ dEnv)
  let moreLine :=
    if containers.length > 1 then
      ["📦 +" ++ toString (containers.length - 1) ++ " more containers"]
    else []
  pure (firstDetails ++ moreLine)

/-- Per-kind label enrichment (the `switch (kind)`, lines 301-460). -/
def k8sKindDetails (kindO : Option JsonVal) (resource : JsonVal) :
    Except String (List String) := do
  if kindIs kindO "Deployment" then
    let specO := getField resource "spec"
    match specO with
    | some spec =>
      if truthy spec then do
        let dRepl :=
          if truthyField spec "replicas" then
            ["📊 " ++ jsOptToString (getField spec "replicas") ++ " replicas"]
          else []
        let templateO := getField spec "template"
        let podSpecO : Option JsonVal :=
          match templateO with
          | some t => getField t "spec"
          | none => none
        let dCont ←
          match podSpecO with
          | some podSpec =>
            if truthy podSpec then
              if truthyField podSpec "containers" &&
                  isArr ((getField podSpec "containers").getD .null) then
                match getField podSpec "containers" with
                | some (.arr cs) => k8sContainersDetails cs
                | _ => pure []
              else pure []
            else pure []
          | none => pure []
        pure (dRepl ++ dCont)
      else pure []
    | none => pure []
  else if kindIs kindO "Service" then
    let specO := getField resource "spec"
    match specO with
    | some spec =>
      if truthy spec then do
        let dType := ["🔗 Type: " ++ orDefaultStr (getField spec "type") "ClusterIP"]
        let dPorts ←
          if truthyField spec "ports" &&
              isArr ((getField spec "ports").getD .null) then
            match getField spec "ports" with
            | some (.arr ps) => do
              let portMappings ← ps.mapM (fun port => do
                let pO ← jsGet port "port"
                let tO ← jsGet port "targetPort"
                pure (jsOptToString pO ++
                  (match tO with
                  | some tv => if truthy tv then ":" ++ jsToString tv else ""
                  | none => "")))
              pure ["🌐 " ++ String.intercalate ", " portMappings]
            | _ => pure []
          else pure []
        pure (dType ++ dPorts)
      else pure []
    | none => pure []
  else if kindIs kindO "StatefulSet" then
    let specO := getField resource "spec"
    match specO with
    | some spec =>
      if truthy spec then
        let dRepl :=
          if truthyField spec "replicas" then
            ["📊 " ++ jsOptToString (getField spec "replicas") ++ " replicas"]
          else []
        let dTag := ["💾 StatefulSet"]
        let dVct :=
          if truthyField spec "volumeClaimTemplates" &&
              isArr ((getField spec "volumeClaimTemplates").getD .null) then
            match getField spec "volumeClaimTemplates" with
            | some (.arr templates) =>
              ["💾 " ++ toString templates.length ++ " volume templates"] ++
              (let t0spec : Option JsonVal :=
                match templates.head? with
                | some t0 => getField t0 "spec"
                | none => none
              match t0spec with
              | some vcSpec =>
                if truthy vcSpec then
                  if truthyField vcSpec "resources" then
                    match getField vcSpec "resources" with
                    | some resources =>
                      if truthyField resources "requests" then
                        match getField resources "requests" with
                        | some requests =>
                          if truthyField requests "storage" then
                            ["💾 " ++ jsOptToString (getField requests "storage")]
                          else []
                        | none => []
                      else []
                    | none => []
                  else []
                else []
              | none => [])
            | _ => []
          else []
        pure (dRepl ++ dTag ++ dVct)
      else pure []
    | none => pure []
  else if kindIs kindO "ConfigMap" || kindIs kindO "Secret" then
    match getField resource "data" with
    | some dv =>
      if truthy dv then
        pure ["🔑 " ++ toString (keysOf dv).length ++ " keys"]
      else pure []
    | none => pure []
  else if kindIs kindO "PersistentVolumeClaim" then
    let specO := getField resource "spec"
    let dStorage :=
      if optTruthyField specO "resources" then
        match specO with
        | some spec =>
          (match getField spec "resources" with
          | some resources =>
            if truthyField resources "requests" then
              match getField resources "requests" with
              | some requests =>
                if truthyField requests "storage" then
                  ["💾 " ++ jsOptToString (getField requests "storage")]
                else []
              | none => []
            else []
          | none => [])
        | none => []
      else []
    let dModes :=
      if optTruthyField specO "accessModes" &&
          isArr ((match specO with
            | some spec => getField spec "accessModes"
            | none => none).getD .null) then
        match specO with
        | some spec =>
          (match getField spec "accessModes" with
          | some (.arr ms) => ["🔐 " ++ jsArrJoin ", " ms]
          | _ => [])
        | none => []
      else []
    pure (dStorage ++ dModes)
  else pure []

/-- One resource node inside a namespace subgraph (lines 284-479). -/
def k8sResourceNode (namespaceName : String) (index : Nat)
    (resource : JsonVal) : Except String String := do
  let kindO ← jsGet resource "kind"
  let mdO ← jsGet resource "metadata"
  let metadata := orEmptyObj mdO
  let name := orDefaultStr (getField metadata "name")
    ("resource_" ++ toString index)
  let nodeId := sanitizeNodeId
    (jsOptToString kindO ++ "_" ++ name ++ "_" ++ namespaceName)
  let dLabels :=
    match getField metadata "labels" with
    | some lv =>
      if truthy lv && isObjType lv then
        ["🏷️ " ++ toString (keysOf lv).length ++ " labels"]
      else []
    | none => []
  let dKind ← k8sKindDetails kindO resource
  let detailsArray := ["<b>" ++ name ++ "</b>", "📋 " ++ jsOptToString kindO]
    ++ dLabels ++ dKind
  let label := sanitizeLabel (String.intercalate "<br/>" detailsArray)
  let nodeLine := "        " ++ nodeId ++ "[\"" ++ label ++ "\"]\n"
  let classLine :=
    if kindIs kindO "Deployment" || kindIs kindO "StatefulSet" ||
        kindIs kindO "DaemonSet" then
      "        class " ++ nodeId ++ " workload\n"
    else if kindIs kindO "Service" then
      "        class " ++ nodeId ++ " service\n"
    else if kindIs kindO "ConfigMap" || kindIs kindO "Secret" then
      "        class " ++ nodeId ++ " config\n"
    else if kindIs kindO "PersistentVolumeClaim" then
      "        class " ++ nodeId ++ " storage\n"
    else ""
  pure (nodeLine ++ classLine)

/-- Inner loop of the relationship phase: a candidate selection target
(lines 501-517). -/
def k8sEdgeInner (nodeId : String) (nsName : String) (other : JsonVal) :
    Except String String := do
  let kindO ← jsGet other "kind"
  if kindIs kindO "Deployment" || kindIs kindO "StatefulSet" then
    let mdO ← jsGet other "metadata"
    let om := orEmptyObj mdO
    let otherName := orDefaultStr (getField om "name") "unknown"
    let otherNs := orDefaultStr (getField om "namespace") "default"
    if otherNs = nsName then
      pure ("    " ++ nodeId ++ " -->|selects| " ++
        sanitizeNodeId (jsOptToString kindO ++ "_" ++ otherName ++ "_" ++
          otherNs) ++ "\n")
    else pure ""
  else pure ""

/-- Outer loop of the relationship phase: one potential Service source
(lines 487-519). -/
def k8sResourceEdge (flat : List JsonVal) (resource : JsonVal) :
    Except String String := do
  let kindO ← jsGet resource "kind"
  let mdO ← jsGet resource "metadata"
  let metadata := orEmptyObj mdO
  let name := orDefaultStr (getField metadata "name") "unknown"
  let nsName := orDefaultStr (getField metadata "namespace") "default"
  let nodeId := sanitizeNodeId
    (jsOptToString kindO ++ "_" ++ name ++ "_" ++ nsName)
  if kindIs kindO "Service" then
    let specO := getField resource "spec"
    if optTruthyField specO "selector" then
      emitAllM flat (k8sEdgeInner nodeId nsName)
    else pure ""
  else pure ""

/-- The fixed style-class block of the Kubernetes generator
(lines 523-528). -/
def k8sClassDefs : String :=
  "\n    classDef workload fill:#e3f2fd,stroke:#1976d2,stroke-width:2px,color:#000\n    classDef service fill:#f3e5f5,stroke:#7b1fa2,stroke-width:2px,color:#000\n    classDef config fill:#fff3e0,stroke:#f57c00,stroke-width:2px,color:#000\n    classDef storage fill:#e8f5e8,stroke:#388e3c,stroke-width:2px,color:#000\n  "

/-- The namespace grouping of `generateKubernetesDiagram`
(lines 256-278). -/
def k8sBuildNamespaces (pd : ParsedData) :
    Except String (List (String × List JsonVal)) :=
  if pd.multiDocument && pd.documents.isSome then
    (pd.documents.getD []).foldlM
      (fun acc doc =>
        if truthy doc && isObjType doc then processResource acc doc
        else pure acc) []
  else
    processResource [] pd.data

/-- The markup string computed by `generateKubernetesDiagram`
(`mermaidGenerator.ts` 250-528). -/
def k8sCode (pd : ParsedData) : Except String String := do
  let nss ← k8sBuildNamespaces pd
  let nodesSection ← emitAllM nss (fun p => do
    let inner ← emitAllIdxM p.snd (k8sResourceNode p.fst)
    pure ("    subgraph NS_" ++ sanitizeNodeId p.fst ++
      "[\"🏠 Namespace: " ++ p.fst ++ "\"]\n" ++ inner ++ "    end\n"))
  let flat := nss.flatMap Prod.snd
  let edges ← emitAllM flat (k8sResourceEdge flat)
  pure ("flowchart TD\n" ++ nodesSection ++ edges ++ k8sClassDefs)

/-- `generateKubernetesDiagram` (`mermaidGenerator.ts` 250-535). -/
def generateKubernetesDiagram (pd : ParsedData) :
    Except String MermaidGenerationResult := do
  let code ← k8sCode pd
  pure { success := true, mermaidCode := some code, error := none,
         diagramType := "flowchart" }

/-! ## Terraform generator (`mermaidGenerator.ts` 537-889) -/

/-- `addAWSResourceDetails` (lines 811-849). -/
def addAWSResourceDetails (resourceType : String) (config : JsonVal) :
    List String :=
  if resourceType = "aws_instance" then
    (if truthyField config "instance_type" then
      ["💻 " ++ jsOptToString (getField config "instance_type")] else []) ++
    (if truthyField config "ami" then
      ["💿 " ++ jsOptToString (getField config "ami")] else [])
  else if resourceType = "aws_vpc" then
    if truthyField config "cidr_block" then
      ["🌐 " ++ jsOptToString (getField config "cidr_block")] else []
  else if resourceType = "aws_subnet" then
    (if truthyField config "cidr_block" then
      ["🌐 " ++ jsOptToString (getField config "cidr_block")] else []) ++
    (if truthyField config "availability_zone" then
      ["📍 " ++ jsOptToString (getField config "availability_zone")] else [])
  else if resourceType = "aws_security_group" then
    (match getField config "ingress" with
    | some (.arr xs) =>
      if truthy (.arr xs) then
        ["🔓 " ++ toString xs.length ++ " ingress rules"]
      else []
    | _ => []) ++
    (match getField config "egress" with
    | some (.arr xs) =>
      if truthy (.arr xs) then
        ["🔒 " ++ toString xs.length ++ " egress rules"]
      else []
    | _ => [])
  else if resourceType = "aws_db_instance" then
    (if truthyField config "engine" then
      ["🔧 " ++ jsOptToString (getField config "engine")] else []) ++
    (if truthyField config "instance_class" then
      ["💻 " ++ jsOptToString (getField config "instance_class")] else []) ++
    (if truthyField config "allocated_storage" then
      ["💾 " ++ jsOptToString (getField config "allocated_storage") ++ "GB"]
    else [])
  else if resourceType = "aws_lb" then
    if truthyField config "load_balancer_type" then
      ["⚖️ " ++ jsOptToString (getField config "load_balancer_type")] else []
  else []

/-- `addAzureResourceDetails` (lines 851-871). -/
def addAzureResourceDetails (resourceType : String) (config : JsonVal) :
    List String :=
  if resourceType = "azurerm_virtual_machine" then
    if truthyField config "vm_size" then
      ["💻 " ++ jsOptToString (getField config "vm_size")] else []
  else if resourceType = "azurerm_virtual_network" then
    match getField config "address_space" with
    | some (.arr xs) => ["🌐 " ++ jsOptToString xs.head?]
    | _ => []
  else if resourceType = "azurerm_subnet" then
    match getField config "address_prefixes" with
    | some (.arr xs) => ["🌐 " ++ jsOptToString xs.head?]
    | _ => []
  else []

/-- `addGCPResourceDetails` (lines 873-889). -/
def addGCPResourceDetails (resourceType : String) (config : JsonVal) :
    List String :=
  if resourceType = "google_compute_instance" then
    (if truthyField config "machine_type" then
      ["💻 " ++ jsOptToString (getField config "machine_type")] else []) ++
    (if truthyField config "zone" then
      ["📍 " ++ jsOptToString (getField config "zone")] else [])
  else if resourceType = "google_compute_network" then
    match getField config "auto_create_subnetworks" with
    | some (.bool false) => ["🌐 custom mode"]
    | _ => []
  else []

/-- One resource node of the Resources subgraph (lines 569-650). -/
def tfResourceNode (resourceType : String) (q : String × JsonVal) : String :=
  let instanceName := q.fst
  let config := q.snd
  let nodeId := sanitizeNodeId (resourceType ++ "_" ++ instanceName)
  let d0 := ["<b>" ++ instanceName ++ "</b>", "🏗️ " ++ resourceType]
  let dCfg :=
    if truthy config && isObjType config then
      (if leadsWith "aws_".data resourceType.data then
        addAWSResourceDetails resourceType config
      else if leadsWith "azurerm_".data resourceType.data then
        addAzureResourceDetails resourceType config
      else if leadsWith "google_".data resourceType.data then
        addGCPResourceDetails resourceType config
      else []) ++
      (match getField config "tags" with
      | some tv =>
        if truthy tv && isObjType tv then
          ["🏷️ " ++ toString (keysOf tv).length ++ " tags"]
        else []
      | none => []) ++
      (if truthyField config "count" then
        ["📊 count: " ++ jsOptToString (getField config "count")]
      else [])
    else []
  let label := sanitizeLabel (String.intercalate "<br/>" (d0 ++ dCfg))
  let nodeLine := "        " ++ nodeId ++ "[\"" ++ label ++ "\"]\n"
  let classLine :=
    if strHasSub "vpc" resourceType || strHasSub "network" resourceType then
      "        class " ++ nodeId ++ " network\n"
    else if strHasSub "instance" resourceType ||
        strHasSub "server" resourceType then
      "        class " ++ nodeId ++ " compute\n"
    else if strHasSub "db" resourceType ||
        strHasSub "database" resourceType then
      "        class " ++ nodeId ++ " database\n"
    else if strHasSub "lb" resourceType ||
        strHasSub "balancer" resourceType then
      "        class " ++ nodeId ++ " loadbalancer\n"
    else if strHasSub "storage" resourceType ||
        strHasSub "bucket" resourceType then
      "        class " ++ nodeId ++ " storage\n"
    else ""
  nodeLine ++ classLine

/-- One data-source node (lines 665-695). -/
def tfDataSourceNode (dataType : String) (q : String × JsonVal) : String :=
  let nodeId := sanitizeNodeId ("data_" ++ dataType ++ "_" ++ q.fst)
  let d0 := ["<b>" ++ q.fst ++ "</b>", "📊 data." ++ dataType]
  let dCfg :=
    if truthy q.snd && isObjType q.snd then
      (if truthyField q.snd "filter" || truthyField q.snd "filters" then
        ["🔍 filtered"] else []) ++
      (if strHasSub "vpc" dataType || strHasSub "subnet" dataType then
        ["🌐 network lookup"]
      else if strHasSub "ami" dataType || strHasSub "image" dataType then
        ["💿 image lookup"]
      else [])
    else []
  let label := sanitizeLabel (String.intercalate "<br/>" (d0 ++ dCfg))
  "        " ++ nodeId ++ "[\"" ++ label ++ "\"]\n" ++
    "        class " ++ nodeId ++ " datasource\n"

/-- One variable node (lines 708-734). -/
def tfVariableNode (p : String × JsonVal) : String :=
  let nodeId := sanitizeNodeId ("var_" ++ p.fst)
  let d0 := ["<b>" ++ p.fst ++ "</b>", "📝 variable"]
  let dCfg :=
    if truthy p.snd && isObjType p.snd then
      (if truthyField p.snd "type" then
        ["🔧 " ++ jsOptToString (getField p.snd "type")] else []) ++
      (if (getField p.snd "default").isSome then ["⚙️ has default"]
      else []) ++
      (if truthyField p.snd "description" then
        (let desc := (getField p.snd "description").getD .null
        let shortDesc :=
          match desc with
          | .str s =>
            if s.length > 30 then (⟨s.data.take 30⟩ : String) ++ "..." else s
          | v => jsToString v
        ["ℹ️ " ++ shortDesc])
      else [])
    else []
  let label := sanitizeLabel (String.intercalate "<br/>" (d0 ++ dCfg))
  "        " ++ nodeId ++ "[\"" ++ label ++ "\"]\n" ++
    "        class " ++ nodeId ++ " variable\n"

/-- One `/\$\{([^}]+)\}/g` match: `${`, a non-empty run without `}`,
then `}`.  On failure the engine advances one character. -/
def stepInterpolation (l : List Char) : Option (List Char × List Char) :=
  match l with
  | [] => none
  | c :: rest1 =>
    if c = '$' then
      match rest1 with
      | [] => none
      | b :: rest =>
        if b = '{' then
          let inner := rest.takeWhile neRBrace
          let after := rest.dropWhile neRBrace
          if inner.isEmpty || after.isEmpty then none
          else some (inner, after.tail)
        else none
    else none

theorem stepInterpolation_length_lt :
    ∀ l a r, stepInterpolation l = some (a, r) → r.length < l.length := by
  intro l a r h
  unfold stepInterpolation at h
  split at h
  · simp at h
  rename_i c rest1
  by_cases hc : c = '$'
  · simp only [hc, if_true] at h
    split at h
    · simp at h
    rename_i b rest
    by_cases hb : b = '{'
    · simp only [hb, if_true] at h
      by_cases he : (rest.takeWhile neRBrace).isEmpty ||
          (rest.dropWhile neRBrace).isEmpty
      · simp [he] at h
      · simp only [he, Bool.false_eq_true, if_neg, not_false_eq_true,
          Option.some.injEq, Prod.mk.injEq] at h
        have hr : (rest.dropWhile neRBrace).tail = r := h.2
        have hlen : (rest.dropWhile neRBrace).length ≤ rest.length :=
          dropWhile_length_le _ _
        have := List.length_tail (rest.dropWhile neRBrace)
        subst hr
        simp only [List.length_cons]
        omega
    · simp [hb] at h
  · simp [hc] at h

/-- All `${...}` interpolation bodies of a string, in order. -/
def extractInterpolations (l : List Char) : List (List Char) :=
  scanWith stepInterpolation stepInterpolation_length_lt l

/-- One extracted reference (lines 771-780): dotted references that are
not `var`/`local` become a dotted edge from `type_name`. -/
def tfRefChunk (nodeId : String) (ref : List Char) : String :=
  if ref.contains '.' then
    let parts := splitOnChar '.' ref
    let refType : String := ⟨parts.headD []⟩
    let refName : String := ⟨(parts.drop 1).headD []⟩
    if refType ≠ "var" && refType ≠ "local" then
      "    " ++ sanitizeNodeId (refType ++ "_" ++ refName) ++
        " -.->|referenced by| " ++ nodeId ++ "\n"
    else ""
  else ""

/-- Implicit reference edges of one attribute value (lines 765-784). -/
def tfValueRefEdges (nodeId : String) (value : JsonVal) : String :=
  match value with
  | .str s =>
    if strHasSub "$\x7b" s then
      emitAll (extractInterpolations s.data) (tfRefChunk nodeId)
    else ""
  | _ => ""

/-- Explicit and implicit dependency edges of one resource instance
(lines 745-785). -/
def tfInstanceDeps (resourceType : String) (q : String × JsonVal) : String :=
  let config := q.snd
  if truthy config && isObjType config then
    let nodeId := sanitizeNodeId (resourceType ++ "_" ++ q.fst)
    let depsStr :=
      match getField config "depends_on" with
      | some dv =>
        if truthy dv then
          let deps := match dv with | .arr ds => ds | v => [v]
          emitAll deps (fun dep =>
            match dep with
            | .str d =>
              "    " ++
                sanitizeNodeId
                  ⟨d.data.map (fun c => if c = '.' then '_' else c)⟩ ++
                " -->|depends on| " ++ nodeId ++ "\n"
            | _ => "")
        else ""
      | none => ""
    let refsStr := emitAll (valuesOf config) (tfValueRefEdges nodeId)
    depsStr ++ refsStr
  else ""

/-- The dependency phase over all resources (lines 740-790). -/
def tfDepsSection (resources : JsonVal) : String :=
  emitAll (entriesOf resources) (fun p =>
    if truthy p.snd && isObjType p.snd then
      emitAll (entriesOf p.snd) (tfInstanceDeps p.fst)
    else "")

/-- The fixed style-class block of the Terraform generator
(lines 793-801). -/
def tfClassDefs : String :=
  "\n    classDef network fill:#e3f2fd,stroke:#1976d2,stroke-width:2px,color:#000\n    classDef compute fill:#fff3e0,stroke:#f57c00,stroke-width:2px,color:#000\n    classDef database fill:#f3e5f5,stroke:#7b1fa2,stroke-width:2px,color:#000\n    classDef loadbalancer fill:#e8f5e8,stroke:#388e3c,stroke-width:2px,color:#000\n    classDef storage fill:#fce4ec,stroke:#c2185b,stroke-width:2px,color:#000\n    classDef datasource fill:#f1f8e9,stroke:#689f38,stroke-width:2px,color:#000\n    classDef variable fill:#fff8e1,stroke:#fbc02d,stroke-width:2px,color:#000\n  "

/-- The markup string computed by `generateTerraformDiagram`
(`mermaidGenerator.ts` 537-801). -/
def tfCode (pd : ParsedData) : Except String String := do
  let data := pd.data
  let resourceV ← jsGet data "resource"
  let dataV ← jsGet data "data"
  let varV ← jsGet data "variable"
  let hasResources :=
    match resourceV with
    | some v => truthy v && isObjType v && (keysOf v).length > 0
    | none => false
  let hasDataSources :=
    match dataV with
    | some v => truthy v && isObjType v && (keysOf v).length > 0
    | none => false
  let hasVariables :=
    match varV with
    | some v => truthy v && isObjType v && (keysOf v).length > 0
    | none => false
  let resVal := resourceV.getD .null
  let resourcesSection :=
    if hasResources then
      "    subgraph Resources[\"🏗️ Resources\"]\n" ++
        emitAll (entriesOf resVal) (fun p =>
          if truthy p.snd && isObjType p.snd then
            emitAll (entriesOf p.snd) (tfResourceNode p.fst)
          else "") ++
        "    end\n"
    else ""
  let dataSection :=
    if hasDataSources then
      "    subgraph DataSources[\"📊 Data Sources\"]\n" ++
        emitAll (entriesOf (dataV.getD .null)) (fun p =>
          if truthy p.snd && isObjType p.snd then
            emitAll (entriesOf p.snd) (tfDataSourceNode p.fst)
          else "") ++
        "    end\n"
    else ""
  let variablesSection :=
    if hasVariables then
      "    subgraph Variables[\"📝 Variables\"]\n" ++
        emitAll (entriesOf (varV.getD .null)) tfVariableNode ++
        "    end\n"
    else ""
  let depsSection := if hasResources then tfDepsSection resVal else ""
  pure ("flowchart TD\n" ++ resourcesSection ++ dataSection ++
    variablesSection ++ depsSection ++ tfClassDefs)

/-- `generateTerraformDiagram` (`mermaidGenerator.ts` 537-808). -/
def generateTerraformDiagram (pd : ParsedData) :
    Except String MermaidGenerationResult := do
  let code ← tfCode pd
  pure { success := true, mermaidCode := some code, error := none,
         diagramType := "flowchart" }

/-! ## CloudFormation generator (`mermaidGenerator.ts` 891-939) -/

/-- One CloudFormation resource with its `DependsOn` edges
(lines 899-922). -/
def cfnResourceChunk (p : String × JsonVal) : String :=
  if truthy p.snd && isObjType p.snd then
    let config := p.snd
    let resourceType := orDefaultStr (getField config "Type") "Unknown"
    let nodeId := sanitizeNodeId p.fst
    let label := sanitizeLabel (resourceType ++ "<br/>☁️ " ++ p.fst)
    let nodeLine := "    " ++ nodeId ++ "[\"" ++ label ++ "\"]\n"
    let depsStr :=
      match getField config "DependsOn" with
      | some dv =>
        if truthy dv then
          let deps := match dv with | .arr ds => ds | v => [v]
          emitAll deps (fun dep =>
            match dep with
            | .str d => "    " ++ sanitizeNodeId d ++ " --> " ++ nodeId ++ "\n"
            | _ => "")
        else ""
      | none => ""
    nodeLine ++ depsStr
  else ""

/-- The markup string computed by `generateCloudFormationDiagram`
(`mermaidGenerator.ts` 891-932). -/
def cfnCode (pd : ParsedData) : Except String String := do
  let data := pd.data
  let resourcesV ← jsGet data "Resources"
  let resources := orEmptyObj resourcesV
  let nodes := emitAll (entriesOf resources) cfnResourceChunk
  let paramsV ← jsGet data "Parameters"
  let paramsStr :=
    match paramsV with
    | some pv =>
      if truthy pv && isObjType pv then
        emitAll (keysOf pv) (fun paramName =>
          "    " ++ sanitizeNodeId ("param_" ++ paramName) ++ "[\"" ++
            sanitizeLabel ("Parameter<br/>⚙️ " ++ paramName) ++ "\"]\n")
      else ""
    | none => ""
  pure ("graph TD\n" ++ nodes ++ paramsStr)

/-- `generateCloudFormationDiagram` (`mermaidGenerator.ts` 891-939). -/
def generateCloudFormationDiagram (pd : ParsedData) :
    Except String MermaidGenerationResult := do
  let code ← cfnCode pd
  pure { success := true, mermaidCode := some code, error := none,
         diagramType := "graph" }

/-! ## Azure ARM generator (`mermaidGenerator.ts` 941-980) -/

/-- Pure indexed `forEach`. -/
def emitAllIdxFromP : Nat → List α → (Nat → α → String) → String
  | _, [], _ => ""
  | i, x :: xs, f => f i x ++ emitAllIdxFromP (i + 1) xs f

/-- Pure indexed `forEach` from index 0. -/
def emitAllIdx (l : List α) (f : Nat → α → String) : String :=
  emitAllIdxFromP 0 l f

/-- One ARM resource with its `dependsOn` placeholder edges
(lines 949-973). -/
def armResourceChunk (index : Nat) (resource : JsonVal) : String :=
  if truthy resource && isObjType resource then
    let resourceType := orDefaultStr (getField resource "type") "Unknown"
    let name := orDefaultStr (getField resource "name")
      ("resource_" ++ toString index)
    let nodeId := sanitizeNodeId
      (resourceType ++ "_" ++ name ++ "_" ++ toString index)
    let label := sanitizeLabel (resourceType ++ "<br/>🔷 " ++ name)
    let nodeLine := "    " ++ nodeId ++ "[\"" ++ label ++ "\"]\n"
    let depsStr :=
      match getField resource "dependsOn" with
      | some dv =>
        if truthy dv then
          let deps := match dv with | .arr ds => ds | v => [v]
          emitAll deps (fun dep =>
            match dep with
            | .str d =>
              "    " ++ sanitizeNodeId (d ++ "_dep") ++ " --> " ++ nodeId ++
                "\n"
            | _ => "")
        else ""
      | none => ""
    nodeLine ++ depsStr
  else ""

/-- The markup string computed by `generateAzureARMDiagram`
(`mermaidGenerator.ts` 941-973).  A truthy non-array `resources` value
reaches `.forEach` and throws. -/
def armCode (pd : ParsedData) : Except String String := do
  let data := pd.data
  let resourcesV ← jsGet data "resources"
  let resources ←
    match resourcesV with
    | some v =>
      if truthy v then
        match v with
        | .arr es => Except.ok es
        | _ => Except.error "resources.forEach is not a function"
      else Except.ok ([] : List JsonVal)
    | none => Except.ok ([] : List JsonVal)
  pure ("flowchart TD\n" ++ emitAllIdx resources armResourceChunk)

/-- `generateAzureARMDiagram` (`mermaidGenerator.ts` 941-980). -/
def generateAzureARMDiagram (pd : ParsedData) :
    Except String MermaidGenerationResult := do
  let code ← armCode pd
  pure { success := true, mermaidCode := some code, error := none,
         diagramType := "flowchart" }

/-! ## IBM Cloud generator (`mermaidGenerator.ts` 982-1119) -/

/-- A `/\$\{[^.]+\.([^.]+)\./` match starting exactly here: returns the
second dot-segment. -/
def refNameAt (l : List Char) : Option (List Char) :=
  match l with
  | [] => none
  | c :: rest1 =>
    if c = '$' then
      match rest1 with
      | [] => none
      | b :: rest =>
        if b = '{' then
          let seg1 := rest.takeWhile neDot
          let after1 := rest.dropWhile neDot
          if seg1.isEmpty || after1.isEmpty then none
          else
            let rest2 := after1.tail
            let seg2 := rest2.takeWhile neDot
            let after2 := rest2.dropWhile neDot
            if seg2.isEmpty || after2.isEmpty then none
            else some seg2
        else none
    else none

/-- First match of `/\$\{[^.]+\.([^.]+)\./` anywhere in the list. -/
def firstRefName : List Char → Option (List Char)
  | [] => refNameAt []
  | c :: cs =>
    match refNameAt (c :: cs) with
    | some cap => some cap
    | none => firstRefName cs

/-- `extractResourceName` (`mermaidGenerator.ts` 1115-1119). -/
def extractResourceName (ref : String) : Option String :=
  (firstRefName ref.data).map (fun l => (⟨l⟩ : String))

/-- A `/ibm_is_instance\.([^.]+)/` match starting exactly here. -/
def instanceRefAt (l : List Char) : Option (List Char) :=
  match dropSeq "ibm_is_instance.".data l with
  | some rest =>
    let cap := rest.takeWhile neDot
    if cap.isEmpty then none else some cap
  | none => none

/-- First match of `/ibm_is_instance\.([^.]+)/` anywhere in the list. -/
def firstInstanceRef : List Char → Option (List Char)
  | [] => instanceRefAt []
  | c :: cs =>
    match instanceRefAt (c :: cs) with
    | some cap => some cap
    | none => firstInstanceRef cs

/-- A connection for a reference-valued property (`vpc`, `subnet`, `lb`,
`group`): truthy string values matching the reference pattern push an
edge (the truthiness test is subsumed: empty strings never match). -/
def ibmConnFor (nodeId : String) (props : JsonVal) (field : String) :
    List String :=
  match getField props field with
  | some (.str s) =>
    (match extractResourceName s with
    | some ref => ["    " ++ sanitizeNodeId ref ++ " --> " ++ nodeId]
    | none => [])
  | _ => []

/-- One IBM Cloud resource: its node line and collected connections
(lines 993-1082).  `sanitizeNodeId(name)` calls `.replace` on the raw
value, so a truthy non-string name throws. -/
def ibmResourceChunk (resource : JsonVal) :
    Except String (String × List String) := do
  let nameO ← jsGet resource "name"
  let typeO ← jsGet resource "type"
  let propsO ← jsGet resource "properties"
  let nameT := match nameO with | some v => truthy v | none => false
  let typeT := match typeO with | some v => truthy v | none => false
  if nameT && typeT then do
    let nameV := nameO.getD .null
    let typeV := typeO.getD .null
    let nameStr ←
      match nameV with
      | .str s => Except.ok s
      | _ => Except.error "id.replace is not a function"
    let nodeId := sanitizeNodeId nameStr
    let icon ← do
      let b1 ← jsIncludesE typeV "vpc"
      if b1 then pure "🏢" else do
        let b2 ← jsIncludesE typeV "subnet"
        if b2 then pure "🌐" else do
          let b3 ← jsIncludesE typeV "instance"
          if b3 then pure "🖥️" else do
            let b4 ← jsIncludesE typeV "security_group"
            if b4 then pure "🛡️" else do
              let b5 ← jsIncludesE typeV "lb"
              if b5 then pure "⚖️" else do
                let b6 ← jsIncludesE typeV "floating_ip"
                if b6 then pure "🌍" else do
                  let b7 ← jsIncludesE typeV "cos"
                  if b7 then pure "📦" else pure "🌐"
    let label := sanitizeLabel (icon ++ " " ++ jsToString nameV ++
      "<br/><small>" ++ jsToString typeV ++ "</small>")
    let nodeLine := "    " ++ nodeId ++ "[\"" ++ label ++ "\"]\n"
    let conns :=
      match propsO with
      | some props =>
        if truthy props then
          ibmConnFor nodeId props "vpc" ++
          ibmConnFor nodeId props "subnet" ++
          ibmConnFor nodeId props "lb" ++
          (match getField props "target" with
          | some (.str s) =>
            (match firstInstanceRef s.data with
            | some cap =>
              ["    " ++ sanitizeNodeId (⟨cap⟩ : String) ++ " --> " ++ nodeId]
            | none => [])
          | _ => []) ++
          (match getField props "security_groups" with
          | some (.arr sgs) =>
            sgs.flatMap (fun sg =>
              match sg with
              | .str s =>
                (match extractResourceName s with
                | some ref =>
                  ["    " ++ sanitizeNodeId ref ++ " --> " ++ nodeId]
                | none => [])
              | _ => [])
          | _ => []) ++
          ibmConnFor nodeId props "group"
        else []
      | none => []
    pure (nodeLine, conns)
  else pure ("", [])

/-- One IBM Cloud data-source node (lines 1093-1104); here the node id
is built from the template `data_${name}`, which is always a string. -/
def ibmDataSourceChunk (ds : JsonVal) : Except String String := do
  let nameO ← jsGet ds "name"
  let typeO ← jsGet ds "type"
  let nameT := match nameO with | some v => truthy v | none => false
  let typeT := match typeO with | some v => truthy v | none => false
  if nameT && typeT then
    let nameV := nameO.getD .null
    let typeV := typeO.getD .null
    let nodeId := sanitizeNodeId ("data_" ++ jsToString nameV)
    let label := sanitizeLabel ("📋 " ++ jsToString nameV ++
      "<br/><small>data." ++ jsToString typeV ++ "</small>")
    pure ("    " ++ nodeId ++ "[\"" ++ label ++ "\"]\n")
  else pure ""

/-- The markup string computed by `generateIBMCloudDiagram`
(`mermaidGenerator.ts` 982-1105). -/
def ibmCode (pd : ParsedData) : Except String String := do
  let data := pd.data
  let resourcesO ← jsGet data "resources"
  let resourcesPart ←
    match resourcesO with
    | some (.arr rs) => do
      let pairs ← rs.mapM ibmResourceChunk
      let nodesStr := String.join (pairs.map Prod.fst)
      let conns := pairs.flatMap Prod.snd
      pure (nodesStr ++ String.join (conns.map (fun c => c ++ "\n")))
    | _ => pure ""
  let dsO ← jsGet data "data_sources"
  let dsPart ←
    match dsO with
    | some (.arr ds) => emitAllM ds ibmDataSourceChunk
    | _ => pure ""
  pure ("graph TD\n" ++ resourcesPart ++ dsPart)

/-- `generateIBMCloudDiagram` (`mermaidGenerator.ts` 982-1112). -/
def generateIBMCloudDiagram (pd : ParsedData) :
    Except String MermaidGenerationResult := do
  let code ← ibmCode pd
  pure { success := true, mermaidCode := some code, error := none,
         diagramType := "graph" }

/-! ## The generation dispatcher (`mermaidGenerator.ts` 15-47) -/

/-- The `switch (parsedData.format)` body: each per-format generator may
throw (`.error`); the default case returns an unsupported-format result
without throwing. -/
def dispatchGenerators (pd : ParsedData) :
    Except String MermaidGenerationResult :=
  match pd.format with
  | .dockerCompose => generateDockerComposeDiagram pd
  | .kubernetes => generateKubernetesDiagram pd
  | .terraform => generateTerraformDiagram pd
  | .cloudformation => generateCloudFormationDiagram pd
  | .azureArm => generateAzureARMDiagram pd
  | .ibmCloud => generateIBMCloudDiagram pd
  | .unknown =>
    .ok { success := false, mermaidCode := none,
          error := some ("Unsupported format: " ++ formatLabel pd.format),
          diagramType := "flowchart" }

/-- `generateMermaidDiagram` (`mermaidGenerator.ts` 15-47): the
surrounding `try/catch` converts any thrown error into a failure
result. -/
def generateMermaidDiagram (pd : ParsedData) : MermaidGenerationResult :=
  match dispatchGenerators pd with
  | .ok r => r
  | .error msg =>
    { success := false, mermaidCode := none,
      error := some ("Failed to generate diagram: " ++ msg),
      diagramType := "flowchart" }

/-! ## Lemma library: substring, emission, and monadic folds -/

theorem leadsWith_append (p l b : List Char) (h : leadsWith p l = true) :
    leadsWith p (l ++ b) = true := by
  induction p generalizing l with
  | nil => simp [leadsWith]
  | cons x xs ih =>
    cases l with
    | nil => simp [leadsWith] at h
    | cons c cs =>
      simp only [leadsWith, Bool.and_eq_true] at h
      simp only [List.cons_append, leadsWith, Bool.and_eq_true]
      exact ⟨h.1, ih cs h.2⟩

theorem leadsWith_refl (t : List Char) : leadsWith t t = true := by
  induction t with
  | nil => simp [leadsWith]
  | cons c cs ih => simp [leadsWith, ih]

theorem hasSub_of_leadsWith (t l : List Char) (h : leadsWith t l = true) :
    hasSub t l = true := by
  cases l with
  | nil =>
    cases t with
    | nil => simp [hasSub, leadsWith]
    | cons x xs => simp [leadsWith] at h
  | cons c cs => simp [hasSub, h]

theorem hasSub_append_left (t a b : List Char) (h : hasSub t a = true) :
    hasSub t (a ++ b) = true := by
  induction a with
  | nil =>
    cases t with
    | nil => exact hasSub_of_leadsWith _ _ (by simp [leadsWith])
    | cons x xs => simp [hasSub, leadsWith] at h
  | cons c cs ih =>
    simp only [hasSub, Bool.or_eq_true] at h
    rcases h with h | h
    · exact hasSub_of_leadsWith _ _
        (by simpa using leadsWith_append t (c :: cs) b h)
    · have := ih h
      simp only [List.cons_append, hasSub, Bool.or_eq_true]
      exact Or.inr this

theorem hasSub_append_right (t a b : List Char) (h : hasSub t b = true) :
    hasSub t (a ++ b) = true := by
  induction a with
  | nil => simpa using h
  | cons c cs ih =>
    simp only [List.cons_append, hasSub, Bool.or_eq_true]
    exact Or.inr ih

theorem hasSub_self (t : List Char) : hasSub t t = true :=
  hasSub_of_leadsWith _ _ (leadsWith_refl t)

theorem strHasSub_append_left (t a b : String) (h : strHasSub t a = true) :
    strHasSub t (a ++ b) = true := by
  unfold strHasSub at h ⊢
  rw [String.data_append]
  exact hasSub_append_left _ _ _ h

theorem strHasSub_append_right (t a b : String) (h : strHasSub t b = true) :
    strHasSub t (a ++ b) = true := by
  unfold strHasSub at h ⊢
  rw [String.data_append]
  exact hasSub_append_right _ _ _ h

theorem strHasSub_refl (t : String) : strHasSub t t = true :=
  hasSub_self t.data

theorem emitAll_hasSub {α : Type} (l : List α) (f : α → String) (t : String)
    (x : α) (hx : x ∈ l) (h : strHasSub t (f x) = true) :
    strHasSub t (emitAll l f) = true := by
  induction l with
  | nil => cases hx
  | cons y ys ih =>
    rcases List.mem_cons.mp hx with rfl | hmem
    · exact strHasSub_append_left _ _ _ h
    · exact strHasSub_append_right _ _ _ (ih hmem)

theorem exceptBind_ok {α β : Type} {m : Except String α}
    {k : α → Except String β} {r : β} (h : (m >>= k) = .ok r) :
    ∃ a, m = .ok a ∧ k a = .ok r := by
  cases m with
  | error e => simp [Bind.bind, Except.bind] at h
  | ok a => exact ⟨a, rfl, by simpa [Bind.bind, Except.bind] using h⟩

theorem emitAllM_eq_emitAll {α : Type} (l : List α)
    (f : α → Except String String) (g : α → String)
    (h : ∀ x ∈ l, f x = .ok (g x)) :
    emitAllM l f = .ok (emitAll l g) := by
  induction l with
  | nil => simp [emitAllM, emitAll]
  | cons y ys ih =>
    have hy := h y (List.mem_cons_self y ys)
    have hrest := ih (fun x hx => h x (List.mem_cons_of_mem y hx))
    simp [emitAllM, emitAll, hy, hrest, Bind.bind, Except.bind, Pure.pure,
      Except.pure]

theorem emitAllM_ok_of_all {α : Type} (l : List α)
    (f : α → Except String String)
    (h : ∀ x ∈ l, ∃ s, f x = .ok s) :
    ∃ out, emitAllM l f = .ok out := by
  induction l with
  | nil => exact ⟨"", rfl⟩
  | cons y ys ih =>
    rcases h y (List.mem_cons_self y ys) with ⟨s, hs⟩
    rcases ih (fun x hx => h x (List.mem_cons_of_mem y hx)) with ⟨out, hout⟩
    exact ⟨s ++ out, by
      simp [emitAllM, hs, hout, Bind.bind, Except.bind, Pure.pure,
        Except.pure]⟩

theorem emitAllM_ok_hasSub {α : Type} (l : List α)
    (f : α → Except String String) (t : String) (x : α) (s0 : String)
    (hall : ∀ y ∈ l, ∃ s, f y = .ok s)
    (hx : x ∈ l) (hfx : f x = .ok s0) (hsub : strHasSub t s0 = true) :
    ∃ out, emitAllM l f = .ok out ∧ strHasSub t out = true := by
  induction l with
  | nil => cases hx
  | cons y ys ih =>
    rcases hall y (List.mem_cons_self y ys) with ⟨sy, hsy⟩
    rcases List.mem_cons.mp hx with rfl | hmem
    · rcases emitAllM_ok_of_all ys f
          (fun z hz => hall z (List.mem_cons_of_mem _ hz)) with ⟨out, hout⟩
      refine ⟨s0 ++ out, ?_, strHasSub_append_left _ _ _ hsub⟩
      simp [emitAllM, hfx, hout, Bind.bind, Except.bind, Pure.pure,
        Except.pure]
    · rcases ih (fun z hz => hall z (List.mem_cons_of_mem _ hz)) hmem
          with ⟨out, hout, hsubout⟩
      refine ⟨sy ++ out, ?_, strHasSub_append_right _ _ _ hsubout⟩
      simp [emitAllM, hsy, hout, Bind.bind, Except.bind, Pure.pure,
        Except.pure]

/-! ## Label/trim lemmas -/

theorem escapeLabelChars_append (a b : List Char) :
    escapeLabelChars (a ++ b) = escapeLabelChars a ++ escapeLabelChars b := by
  simp [escapeLabelChars]

theorem trimJsList_id_of (l : List Char)
    (h1 : ∀ c, l.head? = some c → isJsSpace c = false)
    (h2 : ∀ c, l.getLast? = some c → isJsSpace c = false) :
    trimJsList l = l := by
  cases l with
  | nil => rfl
  | cons c cs =>
    have hc := h1 c rfl
    unfold trimJsList
    rw [List.dropWhile_cons_of_neg (by simp [hc])]
    rcases hrev : (c :: cs).reverse with _ | ⟨d, ds⟩
    · exact absurd hrev (by simp)
    · have hd : isJsSpace d = false := by
        apply h2
        rw [← List.head?_reverse, hrev]
        rfl
      have hstep : List.dropWhile isJsSpace (d :: ds) = d :: ds := by
        simp [List.dropWhile_cons, hd]
      rw [hstep, ← hrev, List.reverse_reverse]

/-! ## Sanitizer character-class lemmas (for the id-shape property) -/

theorem sanitizeStep1_allowed (l : List Char) :
    ∀ c ∈ sanitizeStep1 l, isAllowedIdChar c = true := by
  intro c hc
  rcases List.mem_map.mp hc with ⟨x, _, hx⟩
  by_cases hax : isAllowedIdChar x
  · rw [← hx]; simp [hax]
  · rw [← hx]; simp [hax]; decide

theorem sanitizeStep2_allowed (l : List Char)
    (h : ∀ c ∈ l, isAllowedIdChar c = true) :
    ∀ c ∈ sanitizeStep2 l, isAllowedIdChar c = true := by
  intro c hc
  cases l with
  | nil => simp [sanitizeStep2] at hc
  | cons x xs =>
    unfold sanitizeStep2 at hc
    by_cases hd : x.isDigit
    · simp only [hd, if_true, List.mem_cons] at hc
      rcases hc with rfl | hc
      · decide
      · exact h c (by simpa using hc)
    · simp only [hd, Bool.false_eq_true, if_neg, not_false_eq_true] at hc
      exact h c hc

theorem sanitizeStep3_subset (l : List Char) :
    ∀ c ∈ sanitizeStep3 l, c ∈ l := by
  induction l with
  | nil => simp [sanitizeStep3]
  | cons x xs ih =>
    intro c hc
    cases xs with
    | nil => simpa [sanitizeStep3] using hc
    | cons y ys =>
      unfold sanitizeStep3 at hc
      by_cases hb : x = '_' && y = '_'
      · simp only [hb, if_true] at hc
        exact List.mem_cons_of_mem _ (ih c hc)
      · simp only [hb, Bool.false_eq_true, if_neg, not_false_eq_true,
          List.mem_cons] at hc
        rcases hc with rfl | hc
        · exact List.mem_cons_self _ _
        · exact List.mem_cons_of_mem _ (ih c hc)

theorem dropLeadUnderscore_subset (l : List Char) :
    ∀ c ∈ dropLeadUnderscore l, c ∈ l := by
  intro c hc
  cases l with
  | nil => simpa [dropLeadUnderscore] using hc
  | cons x xs =>
    unfold dropLeadUnderscore at hc
    by_cases hx : x = '_'
    · simp only [hx, if_true] at hc
      exact List.mem_cons_of_mem _ hc
    · simp only [hx, Bool.false_eq_true, if_neg, not_false_eq_true] at hc
      exact hc

theorem sanitizeStep4_subset (l : List Char) :
    ∀ c ∈ sanitizeStep4 l, c ∈ l := by
  intro c hc
  unfold sanitizeStep4 at hc
  have h1 := List.mem_reverse.mp hc
  have h2 := dropLeadUnderscore_subset _ _ h1
  have h3 := List.mem_reverse.mp h2
  exact dropLeadUnderscore_subset _ _ h3

/-! ## Claim C1: sanitizer determinism and output shape -/

/-- The identifier regex `^[A-Za-z_][A-Za-z0-9_-]*$` stated by the claim
(spec wording, for comparison against the code's sanitizer). -/
def matchesMermaidIdPattern (s : String) : Bool :=
  match s.data with
  | [] => false
  | c :: cs => (c.isAlpha || c = '_') && cs.all isAllowedIdChar

/-- C1 counterexample: the claim asserts the sanitized result always
matches `^[A-Za-z_][A-Za-z0-9_-]*$` with no leading digit surviving, but
trimming the leading underscore exposes a digit that the `n`-prefixing
step (which ran earlier) never saw: `sanitizeNodeId "_5" = "5"`. -/
theorem c1_counterexample :
    sanitizeNodeId "_5" = "5" ∧
    matchesMermaidIdPattern (sanitizeNodeId "_5") = false := by
  constructor
  · decide
  · decide

/-- C1 (amended): `sanitizeNodeId` is deterministic (a pure function:
repeated application to the same string gives the same result), and
every character of the result lies in `[A-Za-z0-9_-]`; the result may
however be empty or begin with a digit or hyphen, so the full anchored
regex of the original claim does not always hold. -/
theorem c1_theorem : ∀ s : String,
    sanitizeNodeId s = sanitizeNodeId s ∧
    (sanitizeNodeId s).data.all isAllowedIdChar = true := by
  intro s
  refine ⟨rfl, ?_⟩
  apply List.all_eq_true.mpr
  intro c hc
  simp only [sanitizeNodeId] at hc
  have h4 := sanitizeStep4_subset _ _ hc
  have h3 := sanitizeStep3_subset _ _ h4
  exact sanitizeStep2_allowed _ (sanitizeStep1_allowed s.data) _ h3

/-! ## Claim C2: parse failures for invalid YAML/JSON input -/

/-- A JSON syntax-error message for the C2 instances. -/
def c2JsonMsg : String := "Unexpected token i in JSON at position 1"

/-- A YAML syntax-error message for the C2 instances. -/
def c2YamlMsg : String := "bad indentation of a mapping entry"

/-- External parsers that reject every input with the above messages
(modelling a text that is syntactically invalid as JSON and as YAML). -/
def c2FailParsers : ExtParsers :=
  { jsonParse := fun _ => .error c2JsonMsg,
    yamlLoad := fun _ => .error c2YamlMsg,
    yamlLoadAll := fun _ => .error c2YamlMsg }

/-- C2 counterexample: on input that both parsers reject (and that is
not HCL), `parseContent` returns the fixed unable-to-detect message,
which does not carry either parser's syntax-error message — contradicting
the claim that the failure carries the underlying message and is never a
generic error. -/
theorem c2_counterexample :
    (parseContent c2FailParsers "\x7binvalid").success = false ∧
    (parseContent c2FailParsers "\x7binvalid").error =
      some unableToDetectMsg ∧
    strHasSub c2JsonMsg unableToDetectMsg = false ∧
    strHasSub c2YamlMsg unableToDetectMsg = false := by
  refine ⟨?_, ?_, ?_, ?_⟩ <;> decide

/-- C2 (amended): for every input string that is syntactically invalid
as JSON and as YAML (all external parsers fail) and contains no
Terraform-HCL markers, `parseContent` returns a failure result carrying
the fixed unable-to-detect message — format detection returns `unknown`
before any content parsing is attempted, so the underlying parser
message is not surfaced — and it never throws (the embedding is a total
function into `ParseResult`). -/
theorem c2_theorem (P : ExtParsers) (content jm ym am : String)
    (hhcl : hclHeuristic content = false)
    (hj : P.jsonParse content = .error jm)
    (hy : P.yamlLoad content = .error ym)
    (ha : P.yamlLoadAll content = .error am) :
    parseContent P content =
      { success := false, data := none, error := some unableToDetectMsg,
        validationErrors := none } := by
  have hdf : detectFormat P content = .unknown := by
    unfold detectFormat
    by_cases hsep : strHasSub "---" content <;>
      simp [hhcl, hj, hy, ha, hsep]
  unfold parseContent
  rw [hdf]
  simp

/-- C2 witness: the amended theorem applied to a concrete invalid input
with the concrete failing parsers. -/
theorem c2_witness :
    parseContent c2FailParsers "x: [unclosed" =
      { success := false, data := none, error := some unableToDetectMsg,
        validationErrors := none } :=
  c2_theorem c2FailParsers "x: [unclosed" c2JsonMsg c2YamlMsg c2YamlMsg
    (by decide) rfl rfl rfl

/-! ## Claim C3: the detection cascade -/

/-- A JSON object whose `Resources` key is present but falsy, while
`apiVersion`/`kind` are present and truthy. -/
def c3Doc : JsonVal :=
  .obj [("Resources", .bool false), ("apiVersion", .str "v1"),
        ("kind", .str "Pod")]

/-- Parsers under which some input parses (as JSON) to `c3Doc`. -/
def c3Parsers : ExtParsers :=
  { jsonParse := fun _ => .ok c3Doc,
    yamlLoad := fun _ => .error "e",
    yamlLoadAll := fun _ => .error "e" }

/-- C3 counterexample: the claim's cascade labels a document
`cloudformation` when `Resources` is *present* (before the kubernetes
rule), but the code tests truthiness: with `Resources: false` present,
`detectFormat` returns `kubernetes`. -/
theorem c3_counterexample :
    hasKey c3Doc "Resources" = true ∧
    detectFormat c3Parsers "\x7b\x7d" = Format.kubernetes ∧
    Format.kubernetes ≠ Format.cloudformation := by
  refine ⟨by decide, by decide, by decide⟩

/-- C3 (amended): for input that parses (after the HCL check fails) to a
truthy object, `detectFormat` applies the claimed first-match priority
order, with "present" amended to "present with a truthy value"
(null/false/0/empty-string valued keys are skipped): azure-arm (valid
JSON and `$schema` containing the marker), cloudformation, kubernetes,
docker-compose, terraform, ibm-cloud (lower-cased serialization contains
`ibm_`/`ibmcloud_`), otherwise unknown; non-objects yield unknown. -/
theorem c3_theorem (P : ExtParsers) (content : String) (v : JsonVal) :
    (hclHeuristic content = false → P.jsonParse content = .ok v →
      detectFormat P content = classify v true) ∧
    (∀ jm, hclHeuristic content = false → P.jsonParse content = .error jm →
      strHasSub "---" content = false → P.yamlLoad content = .ok v →
      detectFormat P content = classify v false) ∧
    (∀ isJson : Bool, truthy v = true → isObjType v = true →
      ((isJson && schemaHasArmMarker v) = true →
        classify v isJson = .azureArm) ∧
      ((isJson && schemaHasArmMarker v) = false →
        (truthyField v "AWSTemplateFormatVersion" ||
          truthyField v "Resources") = true →
        classify v isJson = .cloudformation) ∧
      ((isJson && schemaHasArmMarker v) = false →
        (truthyField v "AWSTemplateFormatVersion" ||
          truthyField v "Resources") = false →
        (truthyField v "apiVersion" && truthyField v "kind") = true →
        classify v isJson = .kubernetes) ∧
      ((isJson && schemaHasArmMarker v) = false →
        (truthyField v "AWSTemplateFormatVersion" ||
          truthyField v "Resources") = false →
        (truthyField v "apiVersion" && truthyField v "kind") = false →
        (truthyField v "version" && truthyField v "services") = true →
        classify v isJson = .dockerCompose) ∧
      ((isJson && schemaHasArmMarker v) = false →
        (truthyField v "AWSTemplateFormatVersion" ||
          truthyField v "Resources") = false →
        (truthyField v "apiVersion" && truthyField v "kind") = false →
        (truthyField v "version" && truthyField v "services") = false →
        (truthyField v "terraform" || truthyField v "provider" ||
          truthyField v "resource") = true →
        classify v isJson = .terraform) ∧
      ((isJson && schemaHasArmMarker v) = false →
        (truthyField v "AWSTemplateFormatVersion" ||
          truthyField v "Resources") = false →
        (truthyField v "apiVersion" && truthyField v "kind") = false →
        (truthyField v "version" && truthyField v "services") = false →
        (truthyField v "terraform" || truthyField v "provider" ||
          truthyField v "resource") = false →
        (strHasSub "ibm_" (lowerStr (stringifyJson v)) ||
          strHasSub "ibmcloud_" (lowerStr (stringifyJson v))) = true →
        classify v isJson = .ibmCloud) ∧
      ((isJson && schemaHasArmMarker v) = false →
        (truthyField v "AWSTemplateFormatVersion" ||
          truthyField v "Resources") = false →
        (truthyField v "apiVersion" && truthyField v "kind") = false →
        (truthyField v "version" && truthyField v "services") = false →
        (truthyField v "terraform" || truthyField v "provider" ||
          truthyField v "resource") = false →
        (strHasSub "ibm_" (lowerStr (stringifyJson v)) ||
          strHasSub "ibmcloud_" (lowerStr (stringifyJson v))) = false →
        classify v isJson = .unknown)) := by
  refine ⟨?_, ?_, ?_⟩
  · intro hhcl hok
    unfold detectFormat
    simp [hhcl, hok]
  · intro jm hhcl herr hsep hok
    unfold detectFormat
    simp [hhcl, herr, hsep, hok]
  · intro isJson ht ho
    refine ⟨?_, ?_, ?_, ?_, ?_, ?_, ?_⟩ <;> intros <;>
      unfold classify <;> split_ifs <;> simp_all

/-- A minimal docker-compose document for the C3 witness. -/
def c3ComposeDoc : JsonVal :=
  .obj [("version", .str "3"), ("services", .obj [])]

/-- C3 witness: the amended cascade applied to concrete values — the
bridge rule at a concretely parsed JSON input, and the docker-compose
rule at a minimal compose document. -/
theorem c3_witness :
    detectFormat c3Parsers "\x7b\x7d" = classify c3Doc true ∧
    classify c3ComposeDoc false = Format.dockerCompose := by
  constructor
  · exact (c3_theorem c3Parsers "\x7b\x7d" c3Doc).1 (by decide) rfl
  · exact ((c3_theorem c3Parsers "" c3ComposeDoc).2.2 false (by decide)
      (by decide)).2.2.2.1 (by decide) (by decide) (by decide) (by decide)

/-! ## Claim C7: the dispatcher never propagates exceptions -/

theorem strAppend_ne_empty (a b : String) (ha : a ≠ "") : a ++ b ≠ "" := by
  intro h
  apply ha
  have hd : (a ++ b).data = a.data ++ b.data := String.data_append a b
  have : a.data ++ b.data = [] := by rw [← hd, h]
  rcases List.append_eq_nil.mp this with ⟨h1, _⟩
  cases a
  simp_all

theorem composeGen_ok_success (pd : ParsedData) (r : MermaidGenerationResult)
    (h : generateDockerComposeDiagram pd = .ok r) : r.success = true := by
  unfold generateDockerComposeDiagram at h
  obtain ⟨a, ha, h⟩ := exceptBind_ok h
  simp only [Pure.pure, Except.pure, Except.ok.injEq] at h
  rw [← h]

theorem k8sGen_ok_success (pd : ParsedData) (r : MermaidGenerationResult)
    (h : generateKubernetesDiagram pd = .ok r) : r.success = true := by
  unfold generateKubernetesDiagram at h
  obtain ⟨a, ha, h⟩ := exceptBind_ok h
  simp only [Pure.pure, Except.pure, Except.ok.injEq] at h
  rw [← h]

theorem tfGen_ok_success (pd : ParsedData) (r : MermaidGenerationResult)
    (h : generateTerraformDiagram pd = .ok r) : r.success = true := by
  unfold generateTerraformDiagram at h
  obtain ⟨a, ha, h⟩ := exceptBind_ok h
  simp only [Pure.pure, Except.pure, Except.ok.injEq] at h
  rw [← h]

theorem cfnGen_ok_success (pd : ParsedData) (r : MermaidGenerationResult)
    (h : generateCloudFormationDiagram pd = .ok r) : r.success = true := by
  unfold generateCloudFormationDiagram at h
  obtain ⟨a, ha, h⟩ := exceptBind_ok h
  simp only [Pure.pure, Except.pure, Except.ok.injEq] at h
  rw [← h]

theorem armGen_ok_success (pd : ParsedData) (r : MermaidGenerationResult)
    (h : generateAzureARMDiagram pd = .ok r) : r.success = true := by
  unfold generateAzureARMDiagram at h
  obtain ⟨a, ha, h⟩ := exceptBind_ok h
  simp only [Pure.pure, Except.pure, Except.ok.injEq] at h
  rw [← h]

theorem ibmGen_ok_success (pd : ParsedData) (r : MermaidGenerationResult)
    (h : generateIBMCloudDiagram pd = .ok r) : r.success = true := by
  unfold generateIBMCloudDiagram at h
  obtain ⟨a, ha, h⟩ := exceptBind_ok h
  simp only [Pure.pure, Except.pure, Except.ok.injEq] at h
  rw [← h]

/-- C7: `generateMermaidDiagram` never propagates an exception: an
unknown format yields a `success: false` result naming the format; a
thrown generator error is converted into a `success: false` result with
the descriptive `Failed to generate diagram:` message; a successful
generator result is passed through; and every failure result carries a
non-empty error message. -/
theorem c7_theorem (pd : ParsedData) :
    (pd.format = .unknown →
      generateMermaidDiagram pd =
        { success := false, mermaidCode := none,
          error := some ("Unsupported format: " ++ formatLabel pd.format),
          diagramType := "flowchart" }) ∧
    (∀ msg, dispatchGenerators pd = .error msg →
      generateMermaidDiagram pd =
        { success := false, mermaidCode := none,
          error := some ("Failed to generate diagram: " ++ msg),
          diagramType := "flowchart" }) ∧
    (∀ r, dispatchGenerators pd = .ok r → generateMermaidDiagram pd = r) ∧
    ((generateMermaidDiagram pd).success = false →
      ∃ msg, (generateMermaidDiagram pd).error = some msg ∧ msg ≠ "") := by
  refine ⟨?_, ?_, ?_, ?_⟩
  · intro hf
    unfold generateMermaidDiagram dispatchGenerators
    rw [hf]
  · intro msg hmsg
    unfold generateMermaidDiagram
    rw [hmsg]
  · intro r hr
    unfold generateMermaidDiagram
    rw [hr]
  · intro hfail
    cases hD : dispatchGenerators pd with
    | error msg =>
      refine ⟨"Failed to generate diagram: " ++ msg, ?_, ?_⟩
      · unfold generateMermaidDiagram
        rw [hD]
      · exact strAppend_ne_empty _ _ (by decide)
    | ok r =>
      have hgen : generateMermaidDiagram pd = r := by
        unfold generateMermaidDiagram
        rw [hD]
      rw [hgen] at hfail
      cases hfmt : pd.format
      all_goals (
        first
        | (exfalso
           unfold dispatchGenerators at hD
           rw [hfmt] at hD
           first
           | exact absurd (composeGen_ok_success pd r hD)
               (by rw [hfail]; decide)
           | exact absurd (k8sGen_ok_success pd r hD)
               (by rw [hfail]; decide)
           | exact absurd (tfGen_ok_success pd r hD)
               (by rw [hfail]; decide)
           | exact absurd (cfnGen_ok_success pd r hD)
               (by rw [hfail]; decide)
           | exact absurd (armGen_ok_success pd r hD)
               (by rw [hfail]; decide)
           | exact absurd (ibmGen_ok_success pd r hD)
               (by rw [hfail]; decide))
        | (unfold dispatchGenerators at hD
           rw [hfmt] at hD
           simp only [Except.ok.injEq] at hD
           refine ⟨"Unsupported format: " ++ formatLabel Format.unknown,
             ?_, ?_⟩
           · rw [hgen, ← hD]
           · exact strAppend_ne_empty _ _ (by decide)))

/-- A ParsedData with an unrecognized format. -/
def c7UnknownPd : ParsedData :=
  { format := .unknown, data := .null, originalContent := "",
    multiDocument := false, documents := none }

/-- A ParsedData whose generator throws (compose generator reading
`services` off a null tree). -/
def c7NullDataPd : ParsedData :=
  { format := .dockerCompose, data := .null, originalContent := "",
    multiDocument := false, documents := none }

/-- C7 witness: the unknown-format conversion and the caught-exception
conversion at concrete inputs. -/
theorem c7_witness :
    generateMermaidDiagram c7UnknownPd =
      { success := false, mermaidCode := none,
        error := some ("Unsupported format: " ++ formatLabel Format.unknown),
        diagramType := "flowchart" } ∧
    generateMermaidDiagram c7NullDataPd =
      { success := false, mermaidCode := none,
        error := some ("Failed to generate diagram: " ++
          "Cannot read properties of null (reading services)"),
        diagramType := "flowchart" } :=
  ⟨(c7_theorem c7UnknownPd).1 rfl,
   (c7_theorem c7NullDataPd).2.1
     "Cannot read properties of null (reading services)" rfl⟩

/-! ## Claim C10: volume-mount edge condition -/

theorem data_mk (l : List Char) : (⟨l⟩ : String).data = l := rfl

theorem splitOnChar_ne_nil (sep : Char) (l : List Char) :
    splitOnChar sep l ≠ [] := by
  cases l with
  | nil => simp [splitOnChar]
  | cons c cs =>
    unfold splitOnChar
    by_cases hc : c = sep
    · simp [hc]
    · simp only [hc, Bool.false_eq_true, if_neg, not_false_eq_true]
      split <;> simp

theorem splitOnChar_length_pos (sep : Char) (l : List Char) :
    1 ≤ (splitOnChar sep l).length := by
  cases hsc : splitOnChar sep l with
  | nil => exact absurd hsc (splitOnChar_ne_nil sep l)
  | cons p ps => simp

theorem splitOnChar_length_ge_two_iff (sep : Char) (l : List Char) :
    2 ≤ (splitOnChar sep l).length ↔ sep ∈ l := by
  induction l with
  | nil => simp [splitOnChar]
  | cons c cs ih =>
    by_cases hc : c = sep
    · subst hc
      constructor
      · intro _
        exact List.mem_cons_self _ _
      · intro _
        have hlen := splitOnChar_length_pos c cs
        unfold splitOnChar
        rw [if_pos rfl]
        simp only [List.length_cons]
        omega
    · constructor
      · intro h
        unfold splitOnChar at h
        rw [if_neg hc] at h
        rcases hsc : splitOnChar sep cs with _ | ⟨p, ps⟩
        · exact absurd hsc (splitOnChar_ne_nil sep cs)
        · rw [hsc] at h ih
          simp only [List.length_cons] at h ih
          exact List.mem_cons_of_mem _ (ih.mp h)
      · intro h
        rcases List.mem_cons.mp h with rfl | h
        · exact absurd rfl hc
        · unfold splitOnChar
          rw [if_neg hc]
          rcases hsc : splitOnChar sep cs with _ | ⟨p, ps⟩
          · exact absurd hsc (splitOnChar_ne_nil sep cs)
          · rw [hsc] at ih
            simp only [List.length_cons] at ih ⊢
            exact ih.mpr h

/-- C10: a "mounts to" edge for a service-volume entry is emitted
exactly when the entry is a string that splits on `:` into at least two
parts (equivalently, it contains a `:`) and whose first part does not
start with `.` or `/`; in particular a bare named-volume entry such as
`"data"`, with no `:` separator, produces no edge even though it names a
volume. -/
theorem c10_theorem (svcName : String) (s : String) :
    (2 ≤ (splitOnChar ':' s.data).length ↔ ':' ∈ s.data) ∧
    (¬ ':' ∈ s.data → composeVolumeEdgeFor svcName (.str s) = "") ∧
    (composeVolumeEdgeFor svcName (.str s) ≠ "" ↔
      (':' ∈ s.data ∧
        leadsWith ".".data ((splitOnChar ':' s.data).headD []) = false ∧
        leadsWith "/".data ((splitOnChar ':' s.data).headD []) = false)) ∧
    composeVolumeEdgeFor svcName (.str "data") = "" := by
  have hsplit := splitOnChar_length_ge_two_iff ':' s.data
  refine ⟨hsplit, ?_, ?_, ?_⟩
  · intro hnot
    have h2 : ¬ 2 ≤ (splitOnChar ':' s.data).length := fun h =>
      hnot (hsplit.mp h)
    simp only [composeVolumeEdgeFor]
    simp [h2]
  · constructor
    · intro hne
      by_cases h2 : 2 ≤ (splitOnChar ':' s.data).length
      · by_cases hd :
            leadsWith ".".data ((splitOnChar ':' s.data).headD []) = false
        · by_cases hs2 :
              leadsWith "/".data ((splitOnChar ':' s.data).headD []) = false
          · exact ⟨hsplit.mp h2, hd, hs2⟩
          · exfalso
            apply hne
            have hs2t :
                leadsWith "/".data ((splitOnChar ':' s.data).headD []) =
                  true := by
              cases hv : leadsWith "/".data ((splitOnChar ':' s.data).headD [])
              · exact absurd hv hs2
              · rfl
            simp only [composeVolumeEdgeFor]
            rw [if_pos h2, if_neg]
            simp only [data_mk, hs2t, Bool.not_true, Bool.and_false]
            simp
        · exfalso
          apply hne
          have hdt :
              leadsWith ".".data ((splitOnChar ':' s.data).headD []) =
                true := by
            cases hv : leadsWith ".".data ((splitOnChar ':' s.data).headD [])
            · exact absurd hv hd
            · rfl
          simp only [composeVolumeEdgeFor]
          rw [if_pos h2, if_neg]
          simp only [data_mk, hdt, Bool.not_true, Bool.false_and]
          simp
      · exfalso
        apply hne
        simp only [composeVolumeEdgeFor]
        rw [if_neg h2]
    · intro ⟨hc, hd, hs2⟩
      have h2 := hsplit.mpr hc
      simp only [composeVolumeEdgeFor]
      rw [if_pos h2, if_pos]
      · apply strAppend_ne_empty
        apply strAppend_ne_empty
        apply strAppend_ne_empty
        apply strAppend_ne_empty
        decide
      · simp only [data_mk, hd, hs2, Bool.not_false, Bool.and_self]
  · simp only [composeVolumeEdgeFor]
    rw [if_neg (by decide)]

/-- C10 witness: the characterization applied at concrete entries — a
bare name produces no edge, a named-volume mount satisfies the
edge-emission condition. -/
theorem c10_witness :
    (¬ ':' ∈ "data".data → composeVolumeEdgeFor "api" (.str "data") = "") ∧
    (composeVolumeEdgeFor "api" (.str "data:/var/lib/d") ≠ "" ↔
      (':' ∈ "data:/var/lib/d".data ∧
        leadsWith ".".data
          ((splitOnChar ':' "data:/var/lib/d".data).headD []) = false ∧
        leadsWith "/".data
          ((splitOnChar ':' "data:/var/lib/d".data).headD []) = false)) :=
  ⟨( c10_theorem "api" "data").2.1,
   ( c10_theorem "api" "data:/var/lib/d").2.2.1⟩

/-! ## Support lemmas for the compose generator claims -/

theorem jsGet_ok (v : JsonVal) (f : String) (h : isNullJson v = false) :
    jsGet v f = .ok (getField v f) := by
  cases v <;> simp_all [jsGet, isNullJson]

theorem composeServiceDeps_ok (p : String × JsonVal)
    (h : isNullJson p.snd = false) : ∃ s, composeServiceDeps p = .ok s := by
  unfold composeServiceDeps
  rw [jsGet_ok _ _ h]
  simp only [Bind.bind, Except.bind]
  split <;> first
    | exact ⟨_, rfl⟩
    | (split <;> exact ⟨_, rfl⟩)

theorem composeServiceNetworks_ok (p : String × JsonVal)
    (h : isNullJson p.snd = false) :
    ∃ s, composeServiceNetworks p = .ok s := by
  unfold composeServiceNetworks
  rw [jsGet_ok _ _ h]
  simp only [Bind.bind, Except.bind]
  split <;> first
    | exact ⟨_, rfl⟩
    | (split <;> exact ⟨_, rfl⟩)

theorem composeServiceVolumeEdges_ok (p : String × JsonVal)
    (h : isNullJson p.snd = false) :
    ∃ s, composeServiceVolumeEdges p = .ok s := by
  unfold composeServiceVolumeEdges
  rw [jsGet_ok _ _ h]
  simp only [Bind.bind, Except.bind]
  split <;> first
    | exact ⟨_, rfl⟩
    | (split <;> exact ⟨_, rfl⟩)

theorem composeNetBlock_ok (services networks : JsonVal)
    (hok : ∀ p ∈ entriesOf services, ∃ s, composeServiceNetworks p = .ok s) :
    ∃ s, composeNetBlock services networks = .ok s := by
  unfold composeNetBlock
  by_cases hk : (keysOf networks).length > 0
  · obtain ⟨C, hC⟩ := emitAllM_ok_of_all _ _ hok
    refine ⟨"    subgraph Networks[\"🌐 Networks\"]\n" ++
      emitAll (entriesOf networks) composeNetworkNode ++ "    end\n" ++ C,
      ?_⟩
    rw [if_pos hk]
    simp [hC, Bind.bind, Except.bind, Pure.pure, Except.pure]
  · refine ⟨"", ?_⟩
    rw [if_neg hk]
    rfl

theorem composeVolBlock_ok (services volumes : JsonVal)
    (hok : ∀ p ∈ entriesOf services, ∃ s,
      composeServiceVolumeEdges p = .ok s) :
    ∃ s, composeVolBlock services volumes = .ok s := by
  unfold composeVolBlock
  by_cases hk : (keysOf volumes).length > 0
  · obtain ⟨C, hC⟩ := emitAllM_ok_of_all _ _ hok
    refine ⟨"    subgraph Volumes[\"💾 Volumes\"]\n" ++
      emitAll (entriesOf volumes) composeVolumeNode ++ "    end\n" ++ C,
      ?_⟩
    rw [if_pos hk]
    simp [hC, Bind.bind, Except.bind, Pure.pure, Except.pure]
  · refine ⟨"", ?_⟩
    rw [if_neg hk]
    rfl

/-- Assembly of `composeCode` from the values of its phases. -/
theorem composeCode_eq (pd : ParsedData) (svcs : List (String × JsonVal))
    (A B N V : String)
    (hvn : isNullJson pd.data = false)
    (hsv : getField pd.data "services" = some (.obj svcs))
    (hA : emitAllM svcs composeServiceNode = .ok A)
    (hB : emitAllM svcs composeServiceDeps = .ok B)
    (hN : composeNetBlock (.obj svcs)
      (orEmptyObj (getField pd.data "networks")) = .ok N)
    (hV : composeVolBlock (.obj svcs)
      (orEmptyObj (getField pd.data "volumes")) = .ok V) :
    composeCode pd = .ok ("flowchart TD\n" ++
      "    subgraph Services[\"🚀 Services\"]\n" ++ A ++
      "    end\n" ++ B ++ N ++ V ++ composeClassDefs) := by
  simp only [composeCode]
  rw [jsGet_ok _ _ hvn, jsGet_ok _ _ hvn, jsGet_ok _ _ hvn, hsv]
  have hoe : orEmptyObj (some (JsonVal.obj svcs)) = .obj svcs := by
    simp [orEmptyObj, truthy]
  simp [hoe, entriesOf, hA, hB, hN, hV, Bind.bind, Except.bind, Pure.pure,
    Except.pure]

/-! ## Claim C6: depends_on edge direction -/

theorem composeGen_of_code (pd : ParsedData) (code : String)
    (h : composeCode pd = .ok code) :
    generateDockerComposeDiagram pd = .ok
      { success := true, mermaidCode := some code, error := none,
        diagramType := "flowchart" } := by
  unfold generateDockerComposeDiagram
  simp [h, Bind.bind, Except.bind, Pure.pure, Except.pure]

/-- The three-service example of the claim: `web` depends on `api`,
`api` depends on `database`. -/
def c6ExampleDoc : JsonVal := .obj [
  ("version", .str "3.8"),
  ("services", .obj [
    ("web", .obj [("image", .str "nginx:alpine"),
                  ("depends_on", .arr [.str "api"])]),
    ("api", .obj [("image", .str "node:18"),
                  ("depends_on", .arr [.str "database"])]),
    ("database", .obj [("image", .str "postgres:15")])])]

/-- The example document as a ParsedData. -/
def c6ExamplePd : ParsedData :=
  { format := .dockerCompose, data := c6ExampleDoc, originalContent := "",
    multiDocument := false, documents := none }

/-- The markup generated for the example document. -/
def c6ExampleCode : String :=
  match composeCode c6ExamplePd with
  | .ok s => s
  | .error _ => ""

/-- C6: every string entry `d` of a service's `depends_on` list produces
the edge `d -->|depends on| service` (dependency-to-dependent direction)
in the generated markup; on the claim's example the markup contains
`database -->|depends on| api` and `api -->|depends on| web` and not the
reversed edges. -/
theorem c6_theorem (pd : ParsedData) (svcs : List (String × JsonVal))
    (sName d : String) (cfg : JsonVal) (ds : List JsonVal)
    (hvn : isNullJson pd.data = false)
    (hsv : getField pd.data "services" = some (.obj svcs))
    (hnn : ∀ p ∈ svcs, isNullJson p.snd = false)
    (hall1 : ∀ p ∈ svcs, ∃ s, composeServiceNode p = .ok s)
    (hmem : (sName, cfg) ∈ svcs)
    (hdep : getField cfg "depends_on" = some (.arr ds))
    (hmemd : JsonVal.str d ∈ ds) :
    (∃ code, generateDockerComposeDiagram pd = .ok
        { success := true, mermaidCode := some code, error := none,
          diagramType := "flowchart" } ∧
      strHasSub ("    " ++ sanitizeNodeId d ++ " -->|depends on| " ++
        sanitizeNodeId sName ++ "\n") code = true) ∧
    strHasSub "    database -->|depends on| api\n" c6ExampleCode = true ∧
    strHasSub "    api -->|depends on| web\n" c6ExampleCode = true ∧
    strHasSub "api -->|depends on| database" c6ExampleCode = false ∧
    strHasSub "web -->|depends on| api" c6ExampleCode = false := by
  refine ⟨?_, by decide, by decide, by decide, by decide⟩
  obtain ⟨A, hA⟩ := emitAllM_ok_of_all svcs composeServiceNode hall1
  have hdepsall : ∀ p ∈ svcs, ∃ s, composeServiceDeps p = .ok s :=
    fun p hp => composeServiceDeps_ok p (hnn p hp)
  have hcfgnn : isNullJson cfg = false := hnn (sName, cfg) hmem
  have hchunk : composeServiceDeps (sName, cfg) =
      .ok (emitAll ds (composeDepEdge sName)) := by
    unfold composeServiceDeps
    rw [jsGet_ok _ _ hcfgnn]
    simp [hdep, Bind.bind, Except.bind, truthy, Pure.pure, Except.pure]
  have hedgechunk : strHasSub ("    " ++ sanitizeNodeId d ++
      " -->|depends on| " ++ sanitizeNodeId sName ++ "\n")
      (emitAll ds (composeDepEdge sName)) = true := by
    apply emitAll_hasSub ds (composeDepEdge sName) _ (.str d) hmemd
    show strHasSub _ (composeDepEdge sName (.str d)) = true
    unfold composeDepEdge
    exact strHasSub_refl _
  obtain ⟨B, hB, hBsub⟩ := emitAllM_ok_hasSub svcs composeServiceDeps _
    (sName, cfg) _ hdepsall hmem hchunk hedgechunk
  obtain ⟨N, hN⟩ := composeNetBlock_ok (.obj svcs)
    (orEmptyObj (getField pd.data "networks"))
    (fun p hp => composeServiceNetworks_ok p (hnn p hp))
  obtain ⟨V, hV⟩ := composeVolBlock_ok (.obj svcs)
    (orEmptyObj (getField pd.data "volumes"))
    (fun p hp => composeServiceVolumeEdges_ok p (hnn p hp))
  have hcode := composeCode_eq pd svcs A B N V hvn hsv hA hB hN hV
  refine ⟨_, composeGen_of_code _ _ hcode, ?_⟩
  apply strHasSub_append_left
  apply strHasSub_append_left
  apply strHasSub_append_left
  apply strHasSub_append_right
  exact hBsub

/-- Closed witness for C6: the theorem applied to the example document at
service `api`, dependency `database`, with every hypothesis discharged on
the concrete input. -/
theorem c6_witness :
    ∃ code, generateDockerComposeDiagram c6ExamplePd = .ok
        { success := true, mermaidCode := some code, error := none,
          diagramType := "flowchart" } ∧
      strHasSub ("    " ++ sanitizeNodeId "database" ++
        " -->|depends on| " ++ sanitizeNodeId "api" ++ "\n") code = true :=
  (c6_theorem c6ExamplePd
    [("web", .obj [("image", .str "nginx:alpine"),
                   ("depends_on", .arr [.str "api"])]),
     ("api", .obj [("image", .str "node:18"),
                   ("depends_on", .arr [.str "database"])]),
     ("database", .obj [("image", .str "postgres:15")])]
    "api" "database"
    (.obj [("image", .str "node:18"),
           ("depends_on", .arr [.str "database"])])
    [.str "database"]
    (by decide) rfl (by decide)
    (by
      intro p hp
      simp only [List.mem_cons, List.not_mem_nil, or_false] at hp
      rcases hp with rfl | rfl | rfl <;> exact ⟨_, rfl⟩)
    (List.mem_cons_of_mem _ (List.mem_cons_self _ _))
    rfl (List.mem_cons_self _ _)).1

/-! ## Claim C4: terraform implicit reference edges -/

theorem tfGen_of_code (pd : ParsedData) (code : String)
    (h : tfCode pd = .ok code) :
    generateTerraformDiagram pd = .ok
      { success := true, mermaidCode := some code, error := none,
        diagramType := "flowchart" } := by
  unfold generateTerraformDiagram
  simp [h, Bind.bind, Except.bind, Pure.pure, Except.pure]

/-- The example resources of the claim: `aws_subnet.sub1` holds the
interpolated reference `$\x7baws_vpc.main.id\x7d` and a `var` reference. -/
def c4ExampleDoc : JsonVal := .obj [
  ("resource", .obj [
    ("aws_vpc", .obj [
      ("main", .obj [("cidr_block", .str "10.0.0.0/16")])]),
    ("aws_subnet", .obj [
      ("sub1", .obj [
        ("vpc_id", .str "$\x7baws_vpc.main.id\x7d"),
        ("cidr_block", .str "$\x7bvar.subnet_cidr\x7d")])])])]

/-- The example document as a ParsedData. -/
def c4ExamplePd : ParsedData :=
  { format := .terraform, data := c4ExampleDoc, originalContent := "",
    multiDocument := false, documents := none }

/-- The markup generated for the example document. -/
def c4ExampleCode : String :=
  match tfCode c4ExamplePd with
  | .ok s => s
  | .error _ => ""

/-- C4: a string attribute value containing a dotted interpolation whose
first segment is neither `var` nor `local` yields a dotted
`referenced by` edge from `type_name` to the referencing resource; a
`var`/`local` reference yields no edge; on the example, the markup
contains `aws_vpc_main -.->|referenced by| aws_subnet_sub1` and no
`var_subnet_cidr` node or edge. -/
theorem c4_theorem (pd : ParsedData) (rs insts : List (String × JsonVal))
    (rType iName : String) (cfg : JsonVal) (s : String) (ref : List Char)
    (hvn : isNullJson pd.data = false)
    (hres : getField pd.data "resource" = some (.obj rs))
    (hrs0 : rs ≠ [])
    (hmemT : (rType, JsonVal.obj insts) ∈ rs)
    (hmemI : (iName, cfg) ∈ insts)
    (hcfg : truthy cfg = true) (hobj : isObjType cfg = true)
    (hval : JsonVal.str s ∈ valuesOf cfg)
    (hsub : strHasSub "$\x7b" s = true)
    (href : ref ∈ extractInterpolations s.data)
    (hdot : ref.contains '.' = true)
    (hv : (⟨(splitOnChar '.' ref).headD []⟩ : String) ≠ "var")
    (hl : (⟨(splitOnChar '.' ref).headD []⟩ : String) ≠ "local") :
    (∃ code, generateTerraformDiagram pd = .ok
        { success := true, mermaidCode := some code, error := none,
          diagramType := "flowchart" } ∧
      strHasSub ("    " ++
        sanitizeNodeId ((⟨(splitOnChar '.' ref).headD []⟩ : String) ++ "_" ++
          (⟨((splitOnChar '.' ref).drop 1).headD []⟩ : String)) ++
        " -.->|referenced by| " ++
        sanitizeNodeId (rType ++ "_" ++ iName) ++ "\n") code = true) ∧
    (∀ nodeId : String, ∀ r2 : List Char,
      ((⟨(splitOnChar '.' r2).headD []⟩ : String) = "var" ∨
       (⟨(splitOnChar '.' r2).headD []⟩ : String) = "local") →
      tfRefChunk nodeId r2 = "") ∧
    strHasSub "    aws_vpc_main -.->|referenced by| aws_subnet_sub1\n"
      c4ExampleCode = true ∧
    strHasSub "var_subnet_cidr" c4ExampleCode = false := by
  refine ⟨?_, ?_, by decide, by decide⟩
  · have hlen : 0 < rs.length := List.length_pos.mpr hrs0
    have ht : truthy (JsonVal.obj rs) = true := rfl
    have hio : isObjType (JsonVal.obj rs) = true := rfl
    have hkl : decide ((keysOf (JsonVal.obj rs)).length > 0) = true := by
      simp [keysOf, entriesOf]
      exact hlen
    have hok : ∃ P, tfCode pd =
        .ok (P ++ tfDepsSection (.obj rs) ++ tfClassDefs) := by
      exact ⟨_, by
        simp only [tfCode, jsGet_ok _ _ hvn, Bind.bind, Except.bind, hres,
          Option.getD_some, ht, hio, hkl, Bool.true_and, Bool.and_self,
          if_true, Pure.pure]
        rfl⟩
    obtain ⟨P, hok⟩ := hok
    refine ⟨_, tfGen_of_code _ _ hok, ?_⟩
    apply strHasSub_append_left
    apply strHasSub_append_right
    unfold tfDepsSection
    apply emitAll_hasSub _ _ _ (rType, JsonVal.obj insts) hmemT
    show strHasSub _ (emitAll insts (tfInstanceDeps rType)) = true
    apply emitAll_hasSub _ _ _ (iName, cfg) hmemI
    simp only [tfInstanceDeps, hcfg, hobj, Bool.and_self, if_true]
    apply strHasSub_append_right
    apply emitAll_hasSub _ _ _ (JsonVal.str s) hval
    simp only [tfValueRefEdges, hsub, if_true]
    apply emitAll_hasSub _ _ _ ref href
    have hdm : '.' ∈ ref := by simpa using hdot
    have hv2 := hv
    have hl2 := hl
    rw [List.headD_eq_head?_getD] at hv2 hl2
    simp only [tfRefChunk, List.headD_eq_head?_getD]
    rw [if_pos hdot, if_pos (show (decide _ && decide _) = true by
      simp [hv2, hl2])]
    exact strHasSub_refl _
  · intro nodeId r2 h2
    rw [List.headD_eq_head?_getD] at h2
    unfold tfRefChunk
    by_cases hc : '.' ∈ r2
    · rw [if_pos (by simpa using hc)]
      rw [if_neg]
      rcases h2 with h2 | h2 <;> simp [h2]
    · rw [if_neg (by simpa using hc)]

/-- Closed witness for C4: the theorem applied to the example document at
resource `aws_subnet.sub1` and reference `aws_vpc.main.id`, every
hypothesis discharged on the concrete input. -/
theorem c4_witness :
    ∃ code, generateTerraformDiagram c4ExamplePd = .ok
        { success := true, mermaidCode := some code, error := none,
          diagramType := "flowchart" } ∧
      strHasSub ("    " ++
        sanitizeNodeId
          ((⟨(splitOnChar '.' "aws_vpc.main.id".data).headD []⟩ : String) ++
            "_" ++
            (⟨((splitOnChar '.' "aws_vpc.main.id".data).drop 1).headD
              []⟩ : String)) ++
        " -.->|referenced by| " ++
        sanitizeNodeId ("aws_subnet" ++ "_" ++ "sub1") ++ "\n") code =
        true :=
  (c4_theorem c4ExamplePd
    [("aws_vpc", .obj [("main", .obj [("cidr_block", .str "10.0.0.0/16")])]),
     ("aws_subnet", .obj [("sub1", .obj [
        ("vpc_id", .str "$\x7baws_vpc.main.id\x7d"),
        ("cidr_block", .str "$\x7bvar.subnet_cidr\x7d")])])]
    [("sub1", .obj [
        ("vpc_id", .str "$\x7baws_vpc.main.id\x7d"),
        ("cidr_block", .str "$\x7bvar.subnet_cidr\x7d")])]
    "aws_subnet" "sub1"
    (.obj [
        ("vpc_id", .str "$\x7baws_vpc.main.id\x7d"),
        ("cidr_block", .str "$\x7bvar.subnet_cidr\x7d")])
    "$\x7baws_vpc.main.id\x7d" "aws_vpc.main.id".data
    (by decide) rfl (List.cons_ne_nil _ _)
    (List.mem_cons_of_mem _ (List.mem_cons_self _ _))
    (List.mem_cons_self _ _)
    rfl rfl
    (List.mem_cons_self _ _)
    (by decide) (by decide) (by decide) (by decide) (by decide)).1

/-! ## Claim C5: null network/volume configs default their driver -/

/-- A substring of the trailing block survives the label trim when the
list starts with a non-space character and ends with a non-space
character. -/
theorem trimSandwich_hasSub (t A mid B : List Char)
    (hA : ∃ c rest, A = c :: rest ∧ isJsSpace c = false)
    (hB : B ≠ [])
    (hBlast : ∀ c, B.getLast? = some c → isJsSpace c = false)
    (ht : hasSub t B = true) :
    hasSub t (trimJsList ((A ++ mid) ++ B)) = true := by
  obtain ⟨c, rest, rfl, hc⟩ := hA
  have htrim : trimJsList (((c :: rest) ++ mid) ++ B) =
      ((c :: rest) ++ mid) ++ B := by
    apply trimJsList_id_of
    · intro d hd
      simp only [List.cons_append, List.head?_cons, Option.some.injEq] at hd
      rw [← hd]
      exact hc
    · intro d hd
      rw [List.getLast?_append_of_ne_nil _ hB] at hd
      exact hBlast d hd
  rw [htrim]
  exact hasSub_append_right t ((c :: rest) ++ mid) B ht

/-- A null network config defaults the driver label to `bridge`. -/
theorem netNode_has_bridge (name : String) :
    strHasSub "Driver: bridge" (composeNetworkNode (name, .null)) = true := by
  show strHasSub "Driver: bridge"
    ("        " ++ sanitizeNodeId ("network_" ++ name) ++ "[\"" ++
      sanitizeLabel ("🌐 " ++ name ++ "<br/>Driver: " ++ "bridge") ++
      "\"]\n" ++ "        class " ++ sanitizeNodeId ("network_" ++ name) ++
      " network\n") = true
  apply strHasSub_append_left
  apply strHasSub_append_left
  apply strHasSub_append_left
  apply strHasSub_append_left
  apply strHasSub_append_right
  show hasSub "Driver: bridge".data
    (trimJsList (escapeLabelChars
      ("🌐 " ++ name ++ "<br/>Driver: " ++ "bridge").data)) = true
  simp only [String.data_append, escapeLabelChars_append]
  rw [List.append_assoc]
  apply trimSandwich_hasSub
  · exact ⟨'🌐', [' '], rfl, by decide⟩
  · decide
  · intro d hd
    rw [show (escapeLabelChars "<br/>Driver: ".data ++
        escapeLabelChars "bridge".data).getLast? = some 'e' from rfl] at hd
    injection hd with h
    rw [← h]
    decide
  · decide

/-- A null volume config defaults the driver label to `local`. -/
theorem volNode_has_local (name : String) :
    strHasSub "Driver: local" (composeVolumeNode (name, .null)) = true := by
  show strHasSub "Driver: local"
    ("        " ++ sanitizeNodeId ("volume_" ++ name) ++ "[\"" ++
      sanitizeLabel ("💾 " ++ name ++ "<br/>Driver: " ++ "local") ++
      "\"]\n" ++ "        class " ++ sanitizeNodeId ("volume_" ++ name) ++
      " volume\n") = true
  apply strHasSub_append_left
  apply strHasSub_append_left
  apply strHasSub_append_left
  apply strHasSub_append_left
  apply strHasSub_append_right
  show hasSub "Driver: local".data
    (trimJsList (escapeLabelChars
      ("💾 " ++ name ++ "<br/>Driver: " ++ "local").data)) = true
  simp only [String.data_append, escapeLabelChars_append]
  rw [List.append_assoc]
  apply trimSandwich_hasSub
  · exact ⟨'💾', [' '], rfl, by decide⟩
  · decide
  · intro d hd
    rw [show (escapeLabelChars "<br/>Driver: ".data ++
        escapeLabelChars "local".data).getLast? = some 'l' from rfl] at hd
    injection hd with h
    rw [← h]
    decide
  · decide

/-- Networks block: substring of the node list survives into the block
output. -/
theorem composeNetBlock_ok_hasSub (services networks : JsonVal) (t : String)
    (hok : ∀ p ∈ entriesOf services, ∃ s, composeServiceNetworks p = .ok s)
    (hk : (keysOf networks).length > 0)
    (hsub : strHasSub t
      (emitAll (entriesOf networks) composeNetworkNode) = true) :
    ∃ N, composeNetBlock services networks = .ok N ∧
      strHasSub t N = true := by
  obtain ⟨C, hC⟩ := emitAllM_ok_of_all _ _ hok
  refine ⟨"    subgraph Networks[\"🌐 Networks\"]\n" ++
    emitAll (entriesOf networks) composeNetworkNode ++ "    end\n" ++ C,
    ?_, ?_⟩
  · unfold composeNetBlock
    rw [if_pos hk]
    simp [hC, Bind.bind, Except.bind, Pure.pure, Except.pure]
  · apply strHasSub_append_left
    apply strHasSub_append_left
    apply strHasSub_append_right
    exact hsub

/-- Volumes block: substring of the node list survives into the block
output. -/
theorem composeVolBlock_ok_hasSub (services volumes : JsonVal) (t : String)
    (hok : ∀ p ∈ entriesOf services, ∃ s,
      composeServiceVolumeEdges p = .ok s)
    (hk : (keysOf volumes).length > 0)
    (hsub : strHasSub t
      (emitAll (entriesOf volumes) composeVolumeNode) = true) :
    ∃ V, composeVolBlock services volumes = .ok V ∧
      strHasSub t V = true := by
  obtain ⟨C, hC⟩ := emitAllM_ok_of_all _ _ hok
  refine ⟨"    subgraph Volumes[\"💾 Volumes\"]\n" ++
    emitAll (entriesOf volumes) composeVolumeNode ++ "    end\n" ++ C,
    ?_, ?_⟩
  · unfold composeVolBlock
    rw [if_pos hk]
    simp [hC, Bind.bind, Except.bind, Pure.pure, Except.pure]
  · apply strHasSub_append_left
    apply strHasSub_append_left
    apply strHasSub_append_right
    exact hsub

/-- The regression document of the claim: shorthand (null) network and
volume declarations. -/
def c5Doc : JsonVal := .obj [
  ("version", .str "3.8"),
  ("services", .obj [("web", .obj [("image", .str "nginx")])]),
  ("networks", .obj [("frontend", .null)]),
  ("volumes", .obj [("data", .null)])]

/-- The YAML source text of the regression document. -/
def c5Content : String :=
  "version: \"3.8\"\nservices:\n  web:\n    image: nginx\nnetworks:\n  frontend:\nvolumes:\n  data:\n"

/-- External parsers for the regression text: it is not valid JSON, and
the YAML parser yields the regression document. -/
def c5Parsers : ExtParsers :=
  { jsonParse := fun _ => .error "Unexpected token",
    yamlLoad := fun _ => .ok c5Doc,
    yamlLoadAll := fun _ => .ok [c5Doc] }

/-- The parse-then-generate pipeline on the regression text. -/
def c5Pipeline : MermaidGenerationResult :=
  match (parseContent c5Parsers c5Content).data with
  | some pd => generateMermaidDiagram pd
  | none =>
    { success := false, mermaidCode := none, error := none,
      diagramType := "flowchart" }

/-- C5: null (shorthand) network and volume configs do not fail the
compose generator — they default to an empty config whose driver label
is `bridge` for networks and `local` for volumes; on the regression
text, parsing succeeds and the generated markup carries both default
driver labels. -/
theorem c5_theorem (pd : ParsedData) (svcs nets vols : List (String × JsonVal))
    (netName volName : String)
    (hvn : isNullJson pd.data = false)
    (hsv : getField pd.data "services" = some (.obj svcs))
    (hnn : ∀ p ∈ svcs, isNullJson p.snd = false)
    (hall1 : ∀ p ∈ svcs, ∃ s, composeServiceNode p = .ok s)
    (hnet : getField pd.data "networks" = some (.obj nets))
    (hmemN : (netName, JsonVal.null) ∈ nets)
    (hvol : getField pd.data "volumes" = some (.obj vols))
    (hmemV : (volName, JsonVal.null) ∈ vols) :
    (∃ code, generateDockerComposeDiagram pd = .ok
        { success := true, mermaidCode := some code, error := none,
          diagramType := "flowchart" } ∧
      strHasSub "Driver: bridge" code = true ∧
      strHasSub "Driver: local" code = true) ∧
    (parseContent c5Parsers c5Content).success = true ∧
    c5Pipeline.success = true ∧
    strHasSub "Driver: bridge" (c5Pipeline.mermaidCode.getD "") = true ∧
    strHasSub "Driver: local" (c5Pipeline.mermaidCode.getD "") = true := by
  refine ⟨?_, by decide, by decide, by decide, by decide⟩
  obtain ⟨A, hA⟩ := emitAllM_ok_of_all svcs composeServiceNode hall1
  obtain ⟨B, hB⟩ := emitAllM_ok_of_all svcs composeServiceDeps
    (fun p hp => composeServiceDeps_ok p (hnn p hp))
  have hoeN : orEmptyObj (getField pd.data "networks") = .obj nets := by
    rw [hnet]
    rfl
  have hoeV : orEmptyObj (getField pd.data "volumes") = .obj vols := by
    rw [hvol]
    rfl
  have hkN : (keysOf (JsonVal.obj nets)).length > 0 := by
    simp [keysOf, entriesOf]
    exact List.length_pos.mpr (List.ne_nil_of_mem hmemN)
  have hkV : (keysOf (JsonVal.obj vols)).length > 0 := by
    simp [keysOf, entriesOf]
    exact List.length_pos.mpr (List.ne_nil_of_mem hmemV)
  obtain ⟨N, hN, hNsub⟩ := composeNetBlock_ok_hasSub (.obj svcs) (.obj nets)
    "Driver: bridge"
    (fun p hp => composeServiceNetworks_ok p (hnn p hp)) hkN
    (emitAll_hasSub _ _ _ (netName, JsonVal.null) hmemN
      (netNode_has_bridge netName))
  obtain ⟨V, hV, hVsub⟩ := composeVolBlock_ok_hasSub (.obj svcs) (.obj vols)
    "Driver: local"
    (fun p hp => composeServiceVolumeEdges_ok p (hnn p hp)) hkV
    (emitAll_hasSub _ _ _ (volName, JsonVal.null) hmemV
      (volNode_has_local volName))
  have hN2 : composeNetBlock (.obj svcs)
      (orEmptyObj (getField pd.data "networks")) = .ok N := by
    rw [hoeN]
    exact hN
  have hV2 : composeVolBlock (.obj svcs)
      (orEmptyObj (getField pd.data "volumes")) = .ok V := by
    rw [hoeV]
    exact hV
  have hcode := composeCode_eq pd svcs A B N V hvn hsv hA hB hN2 hV2
  refine ⟨_, composeGen_of_code _ _ hcode, ?_, ?_⟩
  · apply strHasSub_append_left
    apply strHasSub_append_left
    apply strHasSub_append_right
    exact hNsub
  · apply strHasSub_append_left
    apply strHasSub_append_right
    exact hVsub

/-- The regression document as a ParsedData. -/
def c5GenPd : ParsedData :=
  { format := .dockerCompose, data := c5Doc, originalContent := c5Content,
    multiDocument := false, documents := none }

/-- Closed witness for C5: the theorem applied to the regression
document, every hypothesis discharged on the concrete input. -/
theorem c5_witness :
    ∃ code, generateDockerComposeDiagram c5GenPd = .ok
        { success := true, mermaidCode := some code, error := none,
          diagramType := "flowchart" } ∧
      strHasSub "Driver: bridge" code = true ∧
      strHasSub "Driver: local" code = true :=
  (c5_theorem c5GenPd [("web", .obj [("image", .str "nginx")])]
    [("frontend", .null)] [("data", .null)] "frontend" "data"
    (by decide) rfl (by decide)
    (by
      intro p hp
      simp only [List.mem_cons, List.not_mem_nil, or_false] at hp
      rcases hp with rfl
      exact ⟨_, rfl⟩)
    rfl (List.mem_cons_self _ _) rfl (List.mem_cons_self _ _)).1

/-! ## Claim C8: multi-document kubernetes input -/

/-- First document of the claim: a Deployment in namespace `prod`. -/
def c8Deployment : JsonVal := .obj [
  ("apiVersion", .str "apps/v1"),
  ("kind", .str "Deployment"),
  ("metadata", .obj [("name", .str "web-app"), ("namespace", .str "prod")]),
  ("spec", .obj [("replicas", .num 3)])]

/-- Second document of the claim: a Service in namespace `prod`. -/
def c8Service : JsonVal := .obj [
  ("apiVersion", .str "v1"),
  ("kind", .str "Service"),
  ("metadata", .obj [("name", .str "web-svc"), ("namespace", .str "prod")]),
  ("spec", .obj [("selector", .obj [("app", .str "web")])])]

/-- Third document of the claim: an Ingress with no namespace. -/
def c8Ingress : JsonVal := .obj [
  ("apiVersion", .str "networking.k8s.io/v1"),
  ("kind", .str "Ingress"),
  ("metadata", .obj [("name", .str "web-ing")])]

/-- The parsed three-document input as a ParsedData. -/
def c8Pd : ParsedData :=
  { format := .kubernetes, data := c8Deployment, originalContent := "",
    multiDocument := true,
    documents := some [c8Deployment, c8Service, c8Ingress] }

/-- The markup generated for the three documents. -/
def c8Code : String :=
  match k8sCode c8Pd with
  | .ok s => s
  | .error _ => ""

/-- C8: a three-document Kubernetes stream parses into exactly 3
documents with the first as primary tree, each preserving its `kind` and
`metadata.name`; the generator groups one node per document under its
namespace subgraph, defaulting to `default`. -/
theorem c8_theorem (P : ExtParsers) (content : String)
    (hhcl : hclHeuristic content = false)
    (hj : ∃ jm, P.jsonParse content = .error jm)
    (hsep : strHasSub "---" content = true)
    (hall : P.yamlLoadAll content =
      .ok [c8Deployment, c8Service, c8Ingress]) :
    parseContent P content =
      { success := true,
        data := some { c8Pd with originalContent := content },
        error := none, validationErrors := none } ∧
    [c8Deployment, c8Service, c8Ingress].length = 3 ∧
    [c8Deployment, c8Service, c8Ingress].map
      (fun d => jsOptToString (getField d "kind")) =
      ["Deployment", "Service", "Ingress"] ∧
    [c8Deployment, c8Service, c8Ingress].map
      (fun d => jsOptToString
        (getField (orEmptyObj (getField d "metadata")) "name")) =
      ["web-app", "web-svc", "web-ing"] ∧
    k8sBuildNamespaces c8Pd =
      .ok [("prod", [c8Deployment, c8Service]), ("default", [c8Ingress])] ∧
    generateKubernetesDiagram c8Pd = .ok
      { success := true, mermaidCode := some c8Code, error := none,
        diagramType := "flowchart" } ∧
    strHasSub "    subgraph NS_prod[\"🏠 Namespace: prod\"]\n" c8Code =
      true ∧
    strHasSub "    subgraph NS_default[\"🏠 Namespace: default\"]\n"
      c8Code = true ∧
    strHasSub "        Deployment_web-app_prod[\"" c8Code = true ∧
    strHasSub "        Service_web-svc_prod[\"" c8Code = true ∧
    strHasSub "        Ingress_web-ing_default[\"" c8Code = true := by
  obtain ⟨jm, hjm⟩ := hj
  have hdf : detectFormat P content = .kubernetes := by
    unfold detectFormat
    simp [hhcl, hjm, hsep, hall]
    rfl
  refine ⟨?_, by decide, by decide, by decide, rfl, rfl, by decide,
    by decide, by decide, by decide, by decide⟩
  unfold parseContent
  rw [hdf]
  simp [hsep, hall, Bind.bind, Except.bind, Pure.pure, Except.pure]
  rfl

/-- The three-document YAML stream fed to the witness parsers. -/
def c8Content : String :=
  "---\nkind: Deployment\n---\nkind: Service\n---\nkind: Ingress\n"

/-- External parsers for the witness: JSON parsing fails, the YAML
multi-document parser yields the three documents. -/
def c8Parsers : ExtParsers :=
  { jsonParse := fun _ => .error "Unexpected token",
    yamlLoad := fun _ => .ok c8Deployment,
    yamlLoadAll := fun _ => .ok [c8Deployment, c8Service, c8Ingress] }

/-- Closed witness for C8: the theorem applied to the concrete
three-document stream, every hypothesis discharged there. -/
theorem c8_witness :
    parseContent c8Parsers c8Content =
      { success := true,
        data := some { c8Pd with originalContent := c8Content },
        error := none, validationErrors := none } :=
  (c8_theorem c8Parsers c8Content (by decide) ⟨"Unexpected token", rfl⟩
    (by decide) rfl).1

/-! ## Claim C9: service selects edges -/

/-- The namespace a resource resolves to in the relationship phase:
`metadata.namespace || "default"` (lines 496, 507). -/
def k8sNsOf (r : JsonVal) : String :=
  orDefaultStr (getField (orEmptyObj (getField r "metadata")) "namespace")
    "default"

/-- The node id a resource gets in the relationship phase (name fallback
`unknown`, lines 494-498 and 508-511). -/
def k8sEdgeNodeId (r : JsonVal) : String :=
  sanitizeNodeId (jsOptToString (getField r "kind") ++ "_" ++
    orDefaultStr (getField (orEmptyObj (getField r "metadata")) "name")
      "unknown" ++ "_" ++ k8sNsOf r)

theorem k8sEdgeInner_ok (nodeId nsName : String) (r : JsonVal)
    (h : isNullJson r = false) :
    ∃ s, k8sEdgeInner nodeId nsName r = .ok s := by
  unfold k8sEdgeInner
  simp only [jsGet_ok _ _ h, Bind.bind, Except.bind]
  split
  · split
    · exact ⟨_, rfl⟩
    · exact ⟨_, rfl⟩
  · exact ⟨_, rfl⟩

theorem k8sEdgeInner_same (nodeId nsName : String) (other : JsonVal)
    (hnn : isNullJson other = false)
    (hk : getField other "kind" = some (.str "Deployment") ∨
          getField other "kind" = some (.str "StatefulSet"))
    (hns : k8sNsOf other = nsName) :
    k8sEdgeInner nodeId nsName other =
      .ok ("    " ++ nodeId ++ " -->|selects| " ++ k8sEdgeNodeId other ++
        "\n") := by
  unfold k8sNsOf at hns
  unfold k8sEdgeInner
  simp only [jsGet_ok _ _ hnn, Bind.bind, Except.bind]
  rcases hk with hk | hk <;>
    simp [hk, kindIs, hns, k8sEdgeNodeId, k8sNsOf, jsOptToString,
      Pure.pure, Except.pure]

theorem k8sEdgeInner_other_ns (nodeId nsName : String) (r : JsonVal)
    (hnn : isNullJson r = false)
    (hns : k8sNsOf r ≠ nsName) :
    k8sEdgeInner nodeId nsName r = .ok "" := by
  unfold k8sNsOf at hns
  unfold k8sEdgeInner
  simp only [jsGet_ok _ _ hnn, Bind.bind, Except.bind]
  by_cases hkb : (kindIs (getField r "kind") "Deployment" ||
      kindIs (getField r "kind") "StatefulSet") = true
  · rw [if_pos hkb, if_neg hns]
    rfl
  · rw [if_neg hkb]
    rfl

theorem k8sResourceEdge_service (flat : List JsonVal) (svc : JsonVal)
    (hnn : isNullJson svc = false)
    (hk : getField svc "kind" = some (.str "Service"))
    (hsel : optTruthyField (getField svc "spec") "selector" = true) :
    k8sResourceEdge flat svc =
      emitAllM flat (k8sEdgeInner (k8sEdgeNodeId svc) (k8sNsOf svc)) := by
  unfold k8sResourceEdge
  simp only [jsGet_ok _ _ hnn, Bind.bind, Except.bind, hk]
  simp [kindIs, hsel, k8sEdgeNodeId, k8sNsOf, jsOptToString, hk]

theorem k8sResourceEdge_ok (flat : List JsonVal) (r : JsonVal)
    (hnn : isNullJson r = false)
    (hflat : ∀ x ∈ flat, isNullJson x = false) :
    ∃ s, k8sResourceEdge flat r = .ok s := by
  unfold k8sResourceEdge
  simp only [jsGet_ok _ _ hnn, Bind.bind, Except.bind]
  split
  · split
    · exact emitAllM_ok_of_all flat _
        (fun x hx => k8sEdgeInner_ok _ _ x (hflat x hx))
    · exact ⟨_, rfl⟩
  · exact ⟨_, rfl⟩

/-- Assembly of `k8sCode` when every phase succeeds. -/
theorem k8sCode_decomp (pd : ParsedData)
    (nss : List (String × List JsonVal)) (E : String)
    (hns : k8sBuildNamespaces pd = .ok nss)
    (hnodes : ∀ p ∈ nss, ∃ s,
      emitAllIdxM p.snd (k8sResourceNode p.fst) = .ok s)
    (hE : emitAllM (nss.flatMap Prod.snd)
      (k8sResourceEdge (nss.flatMap Prod.snd)) = .ok E) :
    ∃ NSS, k8sCode pd = .ok ("flowchart TD\n" ++ NSS ++ E ++
      k8sClassDefs) := by
  obtain ⟨NSS, hNSS⟩ := emitAllM_ok_of_all nss
    (fun p => do
      let inner ← emitAllIdxM p.snd (k8sResourceNode p.fst)
      pure ("    subgraph NS_" ++ sanitizeNodeId p.fst ++
        "[\"🏠 Namespace: " ++ p.fst ++ "\"]\n" ++ inner ++
        "    end\n"))
    (fun p hp => by
      obtain ⟨s, hs⟩ := hnodes p hp
      refine ⟨"    subgraph NS_" ++ sanitizeNodeId p.fst ++
        "[\"🏠 Namespace: " ++ p.fst ++ "\"]\n" ++ s ++ "    end\n", ?_⟩
      simp [hs, Bind.bind, Except.bind, Pure.pure, Except.pure])
  refine ⟨NSS, ?_⟩
  unfold k8sCode
  rw [hns]
  simp only [Bind.bind, Except.bind, Pure.pure, Except.pure] at hNSS ⊢
  rw [hNSS]
  simp [hE]

theorem k8sGen_of_code (pd : ParsedData) (code : String)
    (h : k8sCode pd = .ok code) :
    generateKubernetesDiagram pd = .ok
      { success := true, mermaidCode := some code, error := none,
        diagramType := "flowchart" } := by
  unfold generateKubernetesDiagram
  simp [h, Bind.bind, Except.bind, Pure.pure, Except.pure]

/-- Service with a selector, in namespace `prod`. -/
def c9Service : JsonVal := .obj [
  ("apiVersion", .str "v1"),
  ("kind", .str "Service"),
  ("metadata", .obj [("name", .str "web-svc"), ("namespace", .str "prod")]),
  ("spec", .obj [("selector", .obj [("app", .str "web")])])]

/-- Deployment in the same namespace `prod`. -/
def c9Deployment : JsonVal := .obj [
  ("apiVersion", .str "apps/v1"),
  ("kind", .str "Deployment"),
  ("metadata", .obj [("name", .str "web-app"), ("namespace", .str "prod")]),
  ("spec", .obj [("replicas", .num 2)])]

/-- StatefulSet in a different namespace `staging`. -/
def c9StatefulSet : JsonVal := .obj [
  ("apiVersion", .str "apps/v1"),
  ("kind", .str "StatefulSet"),
  ("metadata", .obj [("name", .str "db"), ("namespace", .str "staging")]),
  ("spec", .obj [("replicas", .num 1)])]

/-- The three resources as a multi-document ParsedData. -/
def c9Pd : ParsedData :=
  { format := .kubernetes, data := c9Service, originalContent := "",
    multiDocument := true,
    documents := some [c9Service, c9Deployment, c9StatefulSet] }

/-- The markup generated for the three resources. -/
def c9Code : String :=
  match k8sCode c9Pd with
  | .ok s => s
  | .error _ => ""

/-- C9: a Service with a truthy `spec.selector` gets a `selects` edge to
every same-namespace Deployment/StatefulSet (no selector-label matching
is consulted), and a resource in a different namespace yields no edge;
on the example, the Service in `prod` selects the Deployment in `prod`
but no edge reaches the StatefulSet in `staging`. -/
theorem c9_theorem (pd : ParsedData) (nss : List (String × List JsonVal))
    (svc other : JsonVal)
    (hns : k8sBuildNamespaces pd = .ok nss)
    (hnodes : ∀ p ∈ nss, ∃ s,
      emitAllIdxM p.snd (k8sResourceNode p.fst) = .ok s)
    (hflatnn : ∀ r ∈ nss.flatMap Prod.snd, isNullJson r = false)
    (hsvc : svc ∈ nss.flatMap Prod.snd)
    (hkS : getField svc "kind" = some (.str "Service"))
    (hsel : optTruthyField (getField svc "spec") "selector" = true)
    (hother : other ∈ nss.flatMap Prod.snd)
    (hkO : getField other "kind" = some (.str "Deployment") ∨
           getField other "kind" = some (.str "StatefulSet"))
    (hsame : k8sNsOf other = k8sNsOf svc) :
    (∃ code, generateKubernetesDiagram pd = .ok
        { success := true, mermaidCode := some code, error := none,
          diagramType := "flowchart" } ∧
      strHasSub ("    " ++ k8sEdgeNodeId svc ++ " -->|selects| " ++
        k8sEdgeNodeId other ++ "\n") code = true) ∧
    (∀ nodeId nsName : String, ∀ r : JsonVal, isNullJson r = false →
      k8sNsOf r ≠ nsName → k8sEdgeInner nodeId nsName r = .ok "") ∧
    strHasSub
      "    Service_web-svc_prod -->|selects| Deployment_web-app_prod\n"
      c9Code = true ∧
    strHasSub "-->|selects| StatefulSet_db_staging" c9Code = false := by
  refine ⟨?_, fun nodeId nsName r h1 h2 =>
    k8sEdgeInner_other_ns nodeId nsName r h1 h2, by decide, by decide⟩
  have hsvcnn : isNullJson svc = false := hflatnn svc hsvc
  have hothernn : isNullJson other = false := hflatnn other hother
  have hchunk := k8sResourceEdge_service (nss.flatMap Prod.snd) svc
    hsvcnn hkS hsel
  have hinner := k8sEdgeInner_same (k8sEdgeNodeId svc) (k8sNsOf svc)
    other hothernn hkO hsame
  obtain ⟨inner, hinnerok, hinnersub⟩ :=
    emitAllM_ok_hasSub (nss.flatMap Prod.snd)
      (k8sEdgeInner (k8sEdgeNodeId svc) (k8sNsOf svc))
      ("    " ++ k8sEdgeNodeId svc ++ " -->|selects| " ++
        k8sEdgeNodeId other ++ "\n")
      other _
      (fun y hy => k8sEdgeInner_ok _ _ y (hflatnn y hy))
      hother hinner (strHasSub_refl _)
  obtain ⟨E, hEok, hEsub⟩ :=
    emitAllM_ok_hasSub (nss.flatMap Prod.snd)
      (k8sResourceEdge (nss.flatMap Prod.snd))
      ("    " ++ k8sEdgeNodeId svc ++ " -->|selects| " ++
        k8sEdgeNodeId other ++ "\n")
      svc inner
      (fun y hy => k8sResourceEdge_ok _ y (hflatnn y hy) hflatnn)
      hsvc (by rw [hchunk]; exact hinnerok) hinnersub
  obtain ⟨NSS, hcode⟩ := k8sCode_decomp pd nss E hns hnodes hEok
  refine ⟨_, k8sGen_of_code _ _ hcode, ?_⟩
  apply strHasSub_append_left
  apply strHasSub_append_right
  exact hEsub

/-- Closed witness for C9: the theorem applied to the three concrete
resources, every hypothesis discharged there. -/
theorem c9_witness :
    ∃ code, generateKubernetesDiagram c9Pd = .ok
        { success := true, mermaidCode := some code, error := none,
          diagramType := "flowchart" } ∧
      strHasSub ("    " ++ k8sEdgeNodeId c9Service ++ " -->|selects| " ++
        k8sEdgeNodeId c9Deployment ++ "\n") code = true :=
  (c9_theorem c9Pd
    [("prod", [c9Service, c9Deployment]), ("staging", [c9StatefulSet])]
    c9Service c9Deployment rfl
    (by
      intro p hp
      simp only [List.mem_cons, List.not_mem_nil, or_false] at hp
      rcases hp with rfl | rfl <;> exact ⟨_, rfl⟩)
    (by decide)
    (List.mem_cons_self _ _)
    rfl rfl
    (List.mem_cons_of_mem _ (List.mem_cons_self _ _))
    (Or.inl rfl) rfl).1
